import Mathlib

/-!
Verification development for the serde_cadence repository: a bidirectional
codec between generic JSON trees and the Cadence-JSON value model.

The definitions below are a shallow embedding of the Rust sources:
  * `src/lib.rs` — the value model (`CadenceValue`, `CadenceType`, ...) and
    the `Error` type;
  * `src/conversion.rs` — the structural transcoder
    (`value_to_cadence_value`, `parse_structured_cadence_value`,
    `cadence_value_to_value`);
  * `src/impls.rs` — the typed bindings (`ToCadenceValue` /
    `FromCadenceValue` implementations for primitives, containers, maps).

Generic JSON (`serde_json::Value`) is modelled as a tree; objects are
association lists in the map's iteration order, with `jsonGet` the exact-key
lookup of `serde_json::Map::get`, and `mapInsert` the ordered insert of the
underlying `BTreeMap` (keys sorted lexicographically, insert replaces the
value for an existing key).
-/

set_option maxHeartbeats 1000000

/-- Model of `serde_json::Number`: the internal representation is either a
non-negative integer (`u64`, stored by `serde_json` as `PosInt`), a negative
integer (`i64`, stored as `NegInt`), or a float (`f64`, stored as `Float`).
A float is modelled by its printed decimal form, which is the only
observation the transcoder makes of it (`to_string`); the transcoder never
inspects a float numerically, it only checks `is_i64`/`is_u64`, which are
`false` for every float. -/
inductive JsonNumber where
  | posInt (n : Nat)
  | negInt (i : Int)
  | float (printed : String)
deriving DecidableEq

/-- Rust `i64::MAX`. -/
def i64Max : Nat := 9223372036854775807

/-- Rust `u64::MAX`. -/
def u64Max : Nat := 18446744073709551615

/-- Rust `serde_json::Number::is_i64`: `PosInt(v)` is an `i64` iff `v <= i64::MAX`;
`NegInt` always is; a float never is. -/
def JsonNumber.isI64 : JsonNumber → Bool
  | .posInt n => n ≤ i64Max
  | .negInt _ => true
  | .float _ => false

/-- Rust `serde_json::Number::is_u64`: true exactly for `PosInt`. -/
def JsonNumber.isU64 : JsonNumber → Bool
  | .posInt _ => true
  | .negInt _ => false
  | .float _ => false

/-- Decimal digits of a natural number, most significant first
(the rendering used by Rust's integer `Display`). -/
def natToDigits (n : Nat) : List Char :=
  if _h : n < 10 then [Nat.digitChar n]
  else natToDigits (n / 10) ++ [Nat.digitChar (n % 10)]
decreasing_by
  exact Nat.div_lt_self (by omega) (by omega)

/-- Decimal rendering of a natural number (Rust `u64::to_string` etc.). -/
def natToString (n : Nat) : String := String.mk (natToDigits n)

/-- Decimal rendering of an integer (Rust `i64::to_string` etc.). -/
def intToString (i : Int) : String :=
  if i < 0 then String.mk ('-' :: natToDigits i.natAbs) else natToString i.toNat

/-- Rust `Number::to_string` (via Rust `Display`): decimal for integers, the
stored printed form for floats. -/
def JsonNumber.toString : JsonNumber → String
  | .posInt n => natToString n
  | .negInt i => intToString i
  | .float s => s

/-- Model of `serde_json::Value`. An object is its member list in the map's
iteration order. -/
inductive JsonValue where
  | null
  | bool (b : Bool)
  | num (n : JsonNumber)
  | str (s : String)
  | arr (items : List JsonValue)
  | obj (members : List (String × JsonValue))

/-- Rust `Value::is_null`. -/
def JsonValue.isNull : JsonValue → Bool
  | .null => true
  | _ => false

/-- Rust `serde_json::Map::get`: exact-key lookup. -/
def jsonGet : List (String × JsonValue) → String → Option JsonValue
  | [], _ => none
  | (k, v) :: rest, key => if k = key then some v else jsonGet rest key

/-- Rust `serde_json::Map::insert` (the map is a `BTreeMap`): replace the value
if the key is present, otherwise insert at the sorted position. -/
def mapInsert : List (String × JsonValue) → String → JsonValue → List (String × JsonValue)
  | [], k, v => [(k, v)]
  | (k', v') :: rest, k, v =>
    if k = k' then (k, v) :: rest
    else if k < k' then (k, v) :: (k', v') :: rest
    else (k', v') :: mapInsert rest k v

/-! ## The Cadence value model (`src/lib.rs`) -/

/-- Rust `PathDomain` (serde: lowercase). -/
inductive PathDomain where
  | Storage
  | Private
  | Public
deriving DecidableEq

/-- Rust `Entitlement` (serde: tag = "kind"). -/
inductive Entitlement where
  | EntitlementMap (type_id : String)
deriving DecidableEq

/-- Rust `Authorization` (serde: tag = "kind"). -/
inductive Authorization where
  | Unauthorized (entitlements : Option (List Entitlement))
  | EntitlementMapAuthorization (entitlements : List Entitlement)
  | EntitlementConjunctionSet (entitlements : List Entitlement)
  | EntitlementDisjunctionSet (entitlements : List Entitlement)
deriving DecidableEq

mutual

/-- Rust `CadenceType`: the static-type grammar (`src/lib.rs`). -/
inductive CadenceType where
  | Account
  | AccountCapabilityController
  | AccountKey
  | Address
  | AnyResource
  | AnyResourceAttachment
  | AnyStruct
  | AnyStructAttachment
  | Block
  | Bool
  | Capability (type_ : CadenceType)
  | CapabilityPath
  | Character
  | DeployedContract
  | DeploymentResult
  | Fix64
  | FixedPoint
  | FixedSizeUnsignedInteger
  | HashAlgorithm
  | HashableStruct
  | Int
  | Int8
  | Int16
  | Int32
  | Int64
  | Int128
  | Int256
  | Integer
  | Never
  | Number
  | Path
  | PrivatePath
  | PublicKey
  | PublicPath
  | SignatureAlgorithm
  | SignedFixedPoint
  | SignedInteger
  | SignedNumber
  | StorageCapabilityController
  | StoragePath
  | String
  | Type
  | UFix64
  | UInt
  | UInt8
  | UInt16
  | UInt32
  | UInt64
  | UInt128
  | UInt256
  | Void
  | Word8
  | Word16
  | Word32
  | Word64
  | Word128
  | Word256
  | Optional (type_ : CadenceType)
  | VariableSizedArray (type_ : CadenceType)
  | ConstantSizedArray (type_ : CadenceType) (size : Nat)
  | Dictionary (key : CadenceType) (value : CadenceType)
  | Struct (type_ : String) (type_id : String)
      (initializers : List (List ParameterType)) (fields : List FieldType)
  | Resource (type_ : String) (type_id : String)
      (initializers : List (List ParameterType)) (fields : List FieldType)
  | Event (type_ : String) (type_id : String)
      (initializers : List (List ParameterType)) (fields : List FieldType)
  | Contract (type_ : String) (type_id : String)
      (initializers : List (List ParameterType)) (fields : List FieldType)
  | StructInterface (type_ : String) (type_id : String)
      (initializers : List (List ParameterType)) (fields : List FieldType)
  | ResourceInterface (type_ : String) (type_id : String)
      (initializers : List (List ParameterType)) (fields : List FieldType)
  | ContractInterface (type_ : String) (type_id : String)
      (initializers : List (List ParameterType)) (fields : List FieldType)
  | Function (type_id : String) (parameters : List ParameterType)
      (purity : Option String) (return_ : CadenceType)
  | Reference (authorization : Authorization) (type_ : CadenceType)
  | Intersection (type_id : String) (types : List CadenceType)
  | Enum (type_ : CadenceType) (type_id : String)
      (initializers : List (List ParameterType)) (fields : List FieldType)
  | InclusiveRange (element : CadenceType)

/-- Rust `FieldType` (`src/lib.rs`). -/
inductive FieldType where
  | mk (id : String) (type_ : CadenceType)

/-- Rust `ParameterType` (`src/lib.rs`). -/
inductive ParameterType where
  | mk (label : String) (id : String) (type_ : CadenceType)

end

/-- Rust `PathValue` (`src/lib.rs`). -/
inductive PathValue where
  | mk (domain : PathDomain) (identifier : String)

/-- Rust `TypeValue` (`src/lib.rs`). -/
inductive TypeValue where
  | mk (static_type : CadenceType)

/-- Rust `CapabilityValue` (`src/lib.rs`). -/
inductive CapabilityValue where
  | mk (id : String) (address : String) (borrow_type : CadenceType)

/-- Rust `FunctionValue` (`src/lib.rs`). -/
inductive FunctionValue where
  | mk (function_type : CadenceType)

mutual

/-- Rust `CadenceValue`: the closed value model (`src/lib.rs`), one case per
Cadence kind; numeric payloads are decimal strings. -/
inductive CadenceValue where
  | Void
  | Optional (value : Option CadenceValue)
  | Bool (value : Bool)
  | String (value : String)
  | Address (value : String)
  | Int (value : String)
  | Int8 (value : String)
  | Int16 (value : String)
  | Int32 (value : String)
  | Int64 (value : String)
  | Int128 (value : String)
  | Int256 (value : String)
  | UInt (value : String)
  | UInt8 (value : String)
  | UInt16 (value : String)
  | UInt32 (value : String)
  | UInt64 (value : String)
  | UInt128 (value : String)
  | UInt256 (value : String)
  | Word8 (value : String)
  | Word16 (value : String)
  | Word32 (value : String)
  | Word64 (value : String)
  | Word128 (value : String)
  | Word256 (value : String)
  | Fix64 (value : String)
  | UFix64 (value : String)
  | Array (value : List CadenceValue)
  | Dictionary (value : List DictionaryEntry)
  | Struct (value : CompositeValue)
  | Resource (value : CompositeValue)
  | Event (value : CompositeValue)
  | Contract (value : CompositeValue)
  | Enum (value : CompositeValue)
  | Path (value : PathValue)
  | Type (value : TypeValue)
  | InclusiveRange (value : RangeValue)
  | Capability (value : CapabilityValue)
  | Function (value : FunctionValue)

/-- Rust `DictionaryEntry` (`src/lib.rs`). -/
inductive DictionaryEntry where
  | mk (key : CadenceValue) (value : CadenceValue)

/-- Rust `CompositeField` (`src/lib.rs`). -/
inductive CompositeField where
  | mk (name : String) (value : CadenceValue)

/-- Rust `CompositeValue` (`src/lib.rs`). -/
inductive CompositeValue where
  | mk (id : String) (fields : List CompositeField)

/-- Rust `RangeValue` (`src/lib.rs`): start/end/step of an inclusive range. -/
inductive RangeValue where
  | mk (start : CadenceValue) (end_ : CadenceValue) (step : CadenceValue)

end

def DictionaryEntry.key : DictionaryEntry → CadenceValue
  | .mk k _ => k

def DictionaryEntry.value : DictionaryEntry → CadenceValue
  | .mk _ v => v

def CompositeField.name : CompositeField → String
  | .mk n _ => n

def CompositeField.value : CompositeField → CadenceValue
  | .mk _ v => v

def CompositeValue.id : CompositeValue → String
  | .mk i _ => i

def CompositeValue.fields : CompositeValue → List CompositeField
  | .mk _ f => f

/-- Rust `Error` (`src/lib.rs`): the typed failure cases of the codec.
`SerdeJson` carries the underlying JSON error's message. -/
inductive Error where
  | SerdeJson (msg : String)
  | InvalidCadenceValue (msg : String)
  | TypeMismatch (expected : String) (got : String)
  | UnsupportedType (msg : String)
  | Custom (msg : String)
deriving DecidableEq

/-! ## Debug rendering

The source formats values into error messages with `format!("{:?}", v)`
(derived `Debug`). The functions below mirror the derived `Debug` output:
braced struct syntax for named-field variants, `[..]` for `Vec`,
`Some(..)`/`None` for `Option`, quoted strings with the common escapes.
No theorem below depends on the exact rendering; it is carried so that the
error constructors hold the same data as the source. -/

/-- Rust `Debug` escaping of a character inside a string literal (the common
escapes; other characters are rendered as themselves). -/
def debugEscapeChar (c : Char) : String :=
  match c with
  | '"' => "\\\""
  | '\\' => "\\\\"
  | '\n' => "\\n"
  | '\r' => "\\r"
  | '\t' => "\\t"
  | c => String.singleton c

/-- Rust `Debug` rendering of a string: quoted and escaped. -/
def debugString (s : String) : String :=
  "\"" ++ String.join (s.data.map debugEscapeChar) ++ "\""

def debugPathDomain : PathDomain → String
  | .Storage => "Storage"
  | .Private => "Private"
  | .Public => "Public"

def debugEntitlement : Entitlement → String
  | .EntitlementMap t => "EntitlementMap \x7b type_id: " ++ debugString t ++ " \x7d"

def debugEntitlementList : List Entitlement → String
  | [] => ""
  | [e] => debugEntitlement e
  | e :: rest => debugEntitlement e ++ ", " ++ debugEntitlementList rest

def debugAuthorization : Authorization → String
  | .Unauthorized none => "Unauthorized \x7b entitlements: None \x7d"
  | .Unauthorized (some es) =>
      "Unauthorized \x7b entitlements: Some([" ++ debugEntitlementList es ++ "]) \x7d"
  | .EntitlementMapAuthorization es =>
      "EntitlementMapAuthorization \x7b entitlements: [" ++ debugEntitlementList es ++ "] \x7d"
  | .EntitlementConjunctionSet es =>
      "EntitlementConjunctionSet \x7b entitlements: [" ++ debugEntitlementList es ++ "] \x7d"
  | .EntitlementDisjunctionSet es =>
      "EntitlementDisjunctionSet \x7b entitlements: [" ++ debugEntitlementList es ++ "] \x7d"

/-- Derived `Debug` of a nominal-declaration variant of `CadenceType`
(`Struct`, `Resource`, ..., built from already-rendered pieces). -/
def debugDeclKind (name type_ type_id inits fields : String) : String :=
  name ++ " \x7b type_: " ++ type_ ++ ", type_id: " ++ type_id ++
    ", initializers: " ++ inits ++ ", fields: " ++ fields ++ " \x7d"

mutual

def debugCadenceType : CadenceType → String
  | .Account => "Account"
  | .AccountCapabilityController => "AccountCapabilityController"
  | .AccountKey => "AccountKey"
  | .Address => "Address"
  | .AnyResource => "AnyResource"
  | .AnyResourceAttachment => "AnyResourceAttachment"
  | .AnyStruct => "AnyStruct"
  | .AnyStructAttachment => "AnyStructAttachment"
  | .Block => "Block"
  | .Bool => "Bool"
  | .Capability t => "Capability \x7b type_: " ++ debugCadenceType t ++ " \x7d"
  | .CapabilityPath => "CapabilityPath"
  | .Character => "Character"
  | .DeployedContract => "DeployedContract"
  | .DeploymentResult => "DeploymentResult"
  | .Fix64 => "Fix64"
  | .FixedPoint => "FixedPoint"
  | .FixedSizeUnsignedInteger => "FixedSizeUnsignedInteger"
  | .HashAlgorithm => "HashAlgorithm"
  | .HashableStruct => "HashableStruct"
  | .Int => "Int"
  | .Int8 => "Int8"
  | .Int16 => "Int16"
  | .Int32 => "Int32"
  | .Int64 => "Int64"
  | .Int128 => "Int128"
  | .Int256 => "Int256"
  | .Integer => "Integer"
  | .Never => "Never"
  | .Number => "Number"
  | .Path => "Path"
  | .PrivatePath => "PrivatePath"
  | .PublicKey => "PublicKey"
  | .PublicPath => "PublicPath"
  | .SignatureAlgorithm => "SignatureAlgorithm"
  | .SignedFixedPoint => "SignedFixedPoint"
  | .SignedInteger => "SignedInteger"
  | .SignedNumber => "SignedNumber"
  | .StorageCapabilityController => "StorageCapabilityController"
  | .StoragePath => "StoragePath"
  | .String => "String"
  | .Type => "Type"
  | .UFix64 => "UFix64"
  | .UInt => "UInt"
  | .UInt8 => "UInt8"
  | .UInt16 => "UInt16"
  | .UInt32 => "UInt32"
  | .UInt64 => "UInt64"
  | .UInt128 => "UInt128"
  | .UInt256 => "UInt256"
  | .Void => "Void"
  | .Word8 => "Word8"
  | .Word16 => "Word16"
  | .Word32 => "Word32"
  | .Word64 => "Word64"
  | .Word128 => "Word128"
  | .Word256 => "Word256"
  | .Optional t => "Optional \x7b type_: " ++ debugCadenceType t ++ " \x7d"
  | .VariableSizedArray t => "VariableSizedArray \x7b type_: " ++ debugCadenceType t ++ " \x7d"
  | .ConstantSizedArray t n =>
      "ConstantSizedArray \x7b type_: " ++ debugCadenceType t ++ ", size: " ++ natToString n ++ " \x7d"
  | .Dictionary k v =>
      "Dictionary \x7b key: " ++ debugCadenceType k ++ ", value: " ++ debugCadenceType v ++ " \x7d"
  | .Struct t tid inits fields =>
      debugDeclKind "Struct" (debugString t) (debugString tid)
        ("[" ++ debugParameterTypeListList inits ++ "]") ("[" ++ debugFieldTypeList fields ++ "]")
  | .Resource t tid inits fields =>
      debugDeclKind "Resource" (debugString t) (debugString tid)
        ("[" ++ debugParameterTypeListList inits ++ "]") ("[" ++ debugFieldTypeList fields ++ "]")
  | .Event t tid inits fields =>
      debugDeclKind "Event" (debugString t) (debugString tid)
        ("[" ++ debugParameterTypeListList inits ++ "]") ("[" ++ debugFieldTypeList fields ++ "]")
  | .Contract t tid inits fields =>
      debugDeclKind "Contract" (debugString t) (debugString tid)
        ("[" ++ debugParameterTypeListList inits ++ "]") ("[" ++ debugFieldTypeList fields ++ "]")
  | .StructInterface t tid inits fields =>
      debugDeclKind "StructInterface" (debugString t) (debugString tid)
        ("[" ++ debugParameterTypeListList inits ++ "]") ("[" ++ debugFieldTypeList fields ++ "]")
  | .ResourceInterface t tid inits fields =>
      debugDeclKind "ResourceInterface" (debugString t) (debugString tid)
        ("[" ++ debugParameterTypeListList inits ++ "]") ("[" ++ debugFieldTypeList fields ++ "]")
  | .ContractInterface t tid inits fields =>
      debugDeclKind "ContractInterface" (debugString t) (debugString tid)
        ("[" ++ debugParameterTypeListList inits ++ "]") ("[" ++ debugFieldTypeList fields ++ "]")
  | .Function tid params purity ret =>
      "Function \x7b type_id: " ++ debugString tid ++ ", parameters: [" ++
        debugParameterTypeList params ++ "], purity: " ++
        (match purity with
         | none => "None"
         | some p => "Some(" ++ debugString p ++ ")") ++
        ", return_: " ++ debugCadenceType ret ++ " \x7d"
  | .Reference auth t =>
      "Reference \x7b authorization: " ++ debugAuthorization auth ++
        ", type_: " ++ debugCadenceType t ++ " \x7d"
  | .Intersection tid ts =>
      "Intersection \x7b type_id: " ++ debugString tid ++ ", types: [" ++
        debugCadenceTypeList ts ++ "] \x7d"
  | .Enum t tid inits fields =>
      debugDeclKind "Enum" (debugCadenceType t) (debugString tid)
        ("[" ++ debugParameterTypeListList inits ++ "]") ("[" ++ debugFieldTypeList fields ++ "]")
  | .InclusiveRange e => "InclusiveRange \x7b element: " ++ debugCadenceType e ++ " \x7d"

def debugCadenceTypeList : List CadenceType → String
  | [] => ""
  | [t] => debugCadenceType t
  | t :: rest => debugCadenceType t ++ ", " ++ debugCadenceTypeList rest

def debugFieldType : FieldType → String
  | .mk id t => "FieldType \x7b id: " ++ debugString id ++ ", type_: " ++ debugCadenceType t ++ " \x7d"

def debugFieldTypeList : List FieldType → String
  | [] => ""
  | [f] => debugFieldType f
  | f :: rest => debugFieldType f ++ ", " ++ debugFieldTypeList rest

def debugParameterType : ParameterType → String
  | .mk label id t =>
      "ParameterType \x7b label: " ++ debugString label ++ ", id: " ++ debugString id ++
        ", type_: " ++ debugCadenceType t ++ " \x7d"

def debugParameterTypeList : List ParameterType → String
  | [] => ""
  | [p] => debugParameterType p
  | p :: rest => debugParameterType p ++ ", " ++ debugParameterTypeList rest

def debugParameterTypeListList : List (List ParameterType) → String
  | [] => ""
  | [l] => "[" ++ debugParameterTypeList l ++ "]"
  | l :: rest => "[" ++ debugParameterTypeList l ++ "], " ++ debugParameterTypeListList rest

end

def debugPathValue : PathValue → String
  | .mk d i =>
      "PathValue \x7b domain: " ++ debugPathDomain d ++ ", identifier: " ++ debugString i ++ " \x7d"

def debugTypeValue : TypeValue → String
  | .mk t => "TypeValue \x7b static_type: " ++ debugCadenceType t ++ " \x7d"

def debugCapabilityValue : CapabilityValue → String
  | .mk id addr bt =>
      "CapabilityValue \x7b id: " ++ debugString id ++ ", address: " ++ debugString addr ++
        ", borrow_type: " ++ debugCadenceType bt ++ " \x7d"

def debugFunctionValue : FunctionValue → String
  | .mk t => "FunctionValue \x7b function_type: " ++ debugCadenceType t ++ " \x7d"

/-- Derived `Debug` of a named-field variant holding one `value` field. -/
def debugValueField (name payload : String) : String :=
  name ++ " \x7b value: " ++ payload ++ " \x7d"

mutual

/-- Derived `Debug` for `CadenceValue` (used by `format!("{:?}", ...)`). -/
def rustDebug : CadenceValue → String
  | .Void => "Void"
  | .Optional none => debugValueField "Optional" "None"
  | .Optional (some v) => debugValueField "Optional" ("Some(" ++ rustDebug v ++ ")")
  | .Bool b => debugValueField "Bool" (cond b "true" "false")
  | .String s => debugValueField "String" (debugString s)
  | .Address s => debugValueField "Address" (debugString s)
  | .Int s => debugValueField "Int" (debugString s)
  | .Int8 s => debugValueField "Int8" (debugString s)
  | .Int16 s => debugValueField "Int16" (debugString s)
  | .Int32 s => debugValueField "Int32" (debugString s)
  | .Int64 s => debugValueField "Int64" (debugString s)
  | .Int128 s => debugValueField "Int128" (debugString s)
  | .Int256 s => debugValueField "Int256" (debugString s)
  | .UInt s => debugValueField "UInt" (debugString s)
  | .UInt8 s => debugValueField "UInt8" (debugString s)
  | .UInt16 s => debugValueField "UInt16" (debugString s)
  | .UInt32 s => debugValueField "UInt32" (debugString s)
  | .UInt64 s => debugValueField "UInt64" (debugString s)
  | .UInt128 s => debugValueField "UInt128" (debugString s)
  | .UInt256 s => debugValueField "UInt256" (debugString s)
  | .Word8 s => debugValueField "Word8" (debugString s)
  | .Word16 s => debugValueField "Word16" (debugString s)
  | .Word32 s => debugValueField "Word32" (debugString s)
  | .Word64 s => debugValueField "Word64" (debugString s)
  | .Word128 s => debugValueField "Word128" (debugString s)
  | .Word256 s => debugValueField "Word256" (debugString s)
  | .Fix64 s => debugValueField "Fix64" (debugString s)
  | .UFix64 s => debugValueField "UFix64" (debugString s)
  | .Array vs => debugValueField "Array" ("[" ++ rustDebugList vs ++ "]")
  | .Dictionary es => debugValueField "Dictionary" ("[" ++ rustDebugEntryList es ++ "]")
  | .Struct cv => debugValueField "Struct" (rustDebugComposite cv)
  | .Resource cv => debugValueField "Resource" (rustDebugComposite cv)
  | .Event cv => debugValueField "Event" (rustDebugComposite cv)
  | .Contract cv => debugValueField "Contract" (rustDebugComposite cv)
  | .Enum cv => debugValueField "Enum" (rustDebugComposite cv)
  | .Path p => debugValueField "Path" (debugPathValue p)
  | .Type t => debugValueField "Type" (debugTypeValue t)
  | .InclusiveRange r => debugValueField "InclusiveRange" (rustDebugRange r)
  | .Capability c => debugValueField "Capability" (debugCapabilityValue c)
  | .Function f => debugValueField "Function" (debugFunctionValue f)

def rustDebugList : List CadenceValue → String
  | [] => ""
  | [v] => rustDebug v
  | v :: rest => rustDebug v ++ ", " ++ rustDebugList rest

def rustDebugEntry : DictionaryEntry → String
  | .mk k v =>
      "DictionaryEntry \x7b key: " ++ rustDebug k ++ ", value: " ++ rustDebug v ++ " \x7d"

def rustDebugEntryList : List DictionaryEntry → String
  | [] => ""
  | [e] => rustDebugEntry e
  | e :: rest => rustDebugEntry e ++ ", " ++ rustDebugEntryList rest

def rustDebugField : CompositeField → String
  | .mk n v =>
      "CompositeField \x7b name: " ++ debugString n ++ ", value: " ++ rustDebug v ++ " \x7d"

def rustDebugFieldList : List CompositeField → String
  | [] => ""
  | [f] => rustDebugField f
  | f :: rest => rustDebugField f ++ ", " ++ rustDebugFieldList rest

def rustDebugComposite : CompositeValue → String
  | .mk id fields =>
      "CompositeValue \x7b id: " ++ debugString id ++ ", fields: [" ++
        rustDebugFieldList fields ++ "] \x7d"

def rustDebugRange : RangeValue → String
  | .mk s e st =>
      "RangeValue \x7b start: " ++ rustDebug s ++ ", end: " ++ rustDebug e ++
        ", step: " ++ rustDebug st ++ " \x7d"

end

/-! ## Rust integer parsing (`str::parse::<uN>/<iN>`, used by `src/impls.rs`)

`core`'s `from_str_radix` (radix 10): an optional sign (minus only for
signed types), then decimal digits accumulated with per-digit overflow
checks against the type's bounds; a lone sign, an empty string, or any
non-digit character is an error.  `IntErrorKind` carries the failure and
`parseIntErrorMessage` its `Display` rendering (the text interpolated into
`Error::Custom("Failed to parse ...: {e}")`). -/

inductive IntErrorKind where
  | empty
  | invalidDigit
  | posOverflow
  | negOverflow
deriving DecidableEq

/-- Rust `Display` of `std::num::ParseIntError` per kind. -/
def parseIntErrorMessage : IntErrorKind → String
  | .empty => "cannot parse integer from empty string"
  | .invalidDigit => "invalid digit found in string"
  | .posOverflow => "number too large to fit in target type"
  | .negOverflow => "number too small to fit in target type"

/-- Decimal value of a digit character, `none` for a non-digit
(`char::to_digit(10)`: the code point minus `'0'`, when in range). -/
def digitVal? (c : Char) : Option Nat :=
  if 48 ≤ c.toNat ∧ c.toNat ≤ 57 then some (c.toNat - 48) else none

/-- The digit-accumulation loop of `from_str_radix`:`acc` is the magnitude
parsed so far; each step multiplies by 10 and adds the digit, failing with
overflow as soon as the magnitude would exceed `max`. -/
def parseUDigits (max : Nat) : Nat → List Char → Except IntErrorKind Nat
  | acc, [] => .ok acc
  | acc, c :: rest =>
    match digitVal? c with
    | none => .error .invalidDigit
    | some d =>
      if max < acc * 10 + d then .error .posOverflow
      else parseUDigits max (acc * 10 + d) rest

/-- Rust `uN::from_str` with maximum value `max`: empty fails, a leading `+` is
stripped (a lone sign is an invalid digit), a `-` is not a digit for an
unsigned type, then the digit loop runs. -/
def parseUnsignedChars (max : Nat) (l : List Char) : Except IntErrorKind Nat :=
  match l with
  | [] => .error .empty
  | c :: rest =>
    if c = '+' then
      if rest = [] then .error .invalidDigit else parseUDigits max 0 rest
    else if c = '-' then
      if rest = [] then .error .invalidDigit else parseUDigits max 0 (c :: rest)
    else parseUDigits max 0 (c :: rest)

/-- Rust `iN::from_str` with bounds `[min, max]`: as `parseUnsignedChars` but a
leading `-` parses the magnitude against `-min` and negates, reporting
`negOverflow` on overflow. -/
def parseSignedChars (min max : Int) (l : List Char) : Except IntErrorKind Int :=
  match l with
  | [] => .error .empty
  | c :: rest =>
    if c = '+' then
      if rest = [] then .error .invalidDigit
      else (parseUDigits max.toNat 0 rest).map Int.ofNat
    else if c = '-' then
      if rest = [] then .error .invalidDigit
      else
        match parseUDigits (-min).toNat 0 rest with
        | .ok n => .ok (-(n : Int))
        | .error .posOverflow => .error .negOverflow
        | .error e => .error e
    else (parseUDigits max.toNat 0 (c :: rest)).map Int.ofNat

/-! ## The structural transcoder (`src/conversion.rs`) -/

/-- The shared shape of the integer and fixed-point arms of
`parse_structured_cadence_value`: the payload must be an object whose
`"value"` member is a string, which becomes the decimal payload of the
kind built by `mk`. -/
def parseStringValueKind (type_name : String) (mk : String → CadenceValue)
    (value : JsonValue) : Except Error CadenceValue :=
  match value with
  | .obj o =>
    match jsonGet o "value" with
    | some (.str s) => .ok (mk s)
    | _ => .error (.InvalidCadenceValue (type_name ++ " value must be a string"))
  | _ => .error (.InvalidCadenceValue (type_name ++ " value must be an object"))

/-- A `sizeOf` bound for `serde_json::Map::get`: a member value found by
lookup is structurally smaller than the member list. -/
theorem sizeOf_of_jsonGet : ∀ {ms : List (String × JsonValue)} {k : String} {v : JsonValue},
    jsonGet ms k = some v → sizeOf v < sizeOf ms := by
  intro ms k v h
  induction ms with
  | nil => simp [jsonGet] at h
  | cons hd tl ih =>
    obtain ⟨k', v'⟩ := hd
    simp only [jsonGet] at h
    split at h
    · cases h
      simp
      omega
    · have := ih h
      simp
      omega

mutual

/-- Rust `value_to_cadence_value` (`src/conversion.rs`): convert a
`serde_json::Value` to a `CadenceValue`. -/
def value_to_cadence_value : JsonValue → Except Error CadenceValue
  | .null => .ok (.Optional none)
  | .bool b => .ok (.Bool b)
  | .num n =>
    if n.isI64 then .ok (.Int n.toString)
    else if n.isU64 then .ok (.UInt n.toString)
    else .ok (.Fix64 n.toString)
  | .str s => .ok (.String s)
  | .arr items => (decodeArrayItems items).map (fun cs => .Array cs)
  | .obj members =>
    match h1 : jsonGet members "type", h2 : jsonGet members "value" with
    | some (.str type_name), some value_field =>
        parse_structured_cadence_value type_name value_field
    | _, _ => (decodeObjectEntries members).map (fun es => .Dictionary es)
termination_by v => 2 * sizeOf v
decreasing_by
  all_goals simp_wf
  all_goals try omega
  · have hb := sizeOf_of_jsonGet h2
    omega

/-- The per-member loop of the implicit-Dictionary branch of
`value_to_cadence_value`: key = `String(member name)`, value = recursive
decode, in member order, failing on the first member failure. -/
def decodeObjectEntries : List (String × JsonValue) → Except Error (List DictionaryEntry)
  | [] => .ok []
  | (key, v) :: rest => do
    let vv ← value_to_cadence_value v
    let rest' ← decodeObjectEntries rest
    .ok (DictionaryEntry.mk (.String key) vv :: rest')
termination_by ms => 2 * sizeOf ms
decreasing_by
  all_goals simp_wf
  all_goals omega

/-- The element loop of the `Array` cases: element-wise decode in order,
failing on the first element failure. -/
def decodeArrayItems : List JsonValue → Except Error (List CadenceValue)
  | [] => .ok []
  | item :: rest => do
    let c ← value_to_cadence_value item
    let cs ← decodeArrayItems rest
    .ok (c :: cs)
termination_by l => 2 * sizeOf l
decreasing_by
  all_goals simp_wf
  all_goals omega

/-- Rust `parse_structured_cadence_value` (`src/conversion.rs`): decode the
`"value"` payload of an envelope `{"type": type_name, "value": ...}`. -/
def parse_structured_cadence_value (type_name : String) (value : JsonValue) :
    Except Error CadenceValue :=
  match type_name with
  | "Void" => .ok .Void
  | "Optional" =>
    if value.isNull then .ok (.Optional none)
    else (value_to_cadence_value value).map (fun inner => .Optional (some inner))
  | "Bool" =>
    match value with
    | .obj o =>
      match jsonGet o "value" with
      | some (.bool b) => .ok (.Bool b)
      | _ => .error (.InvalidCadenceValue "Bool value must be a boolean")
    | _ => .error (.InvalidCadenceValue "Bool value must be an object")
  | "String" =>
    match value with
    | .obj o =>
      match jsonGet o "value" with
      | some (.str s) => .ok (.String s)
      | _ => .error (.InvalidCadenceValue "String value must be a string")
    | _ => .error (.InvalidCadenceValue "String value must be an object")
  | "Address" =>
    match value with
    | .obj o =>
      match jsonGet o "value" with
      | some (.str s) => .ok (.Address s)
      | _ => .error (.InvalidCadenceValue "Address value must be a string")
    | _ => .error (.InvalidCadenceValue "Address value must be an object")
  | "Int" => parseStringValueKind "Int" .Int value
  | "Int8" => parseStringValueKind "Int8" .Int8 value
  | "Int16" => parseStringValueKind "Int16" .Int16 value
  | "Int32" => parseStringValueKind "Int32" .Int32 value
  | "Int64" => parseStringValueKind "Int64" .Int64 value
  | "Int128" => parseStringValueKind "Int128" .Int128 value
  | "Int256" => parseStringValueKind "Int256" .Int256 value
  | "UInt" => parseStringValueKind "UInt" .UInt value
  | "UInt8" => parseStringValueKind "UInt8" .UInt8 value
  | "UInt16" => parseStringValueKind "UInt16" .UInt16 value
  | "UInt32" => parseStringValueKind "UInt32" .UInt32 value
  | "UInt64" => parseStringValueKind "UInt64" .UInt64 value
  | "UInt128" => parseStringValueKind "UInt128" .UInt128 value
  | "UInt256" => parseStringValueKind "UInt256" .UInt256 value
  | "Word8" => parseStringValueKind "Word8" .Word8 value
  | "Word16" => parseStringValueKind "Word16" .Word16 value
  | "Word32" => parseStringValueKind "Word32" .Word32 value
  | "Word64" => parseStringValueKind "Word64" .Word64 value
  | "Word128" => parseStringValueKind "Word128" .Word128 value
  | "Word256" => parseStringValueKind "Word256" .Word256 value
  | "Fix64" => parseStringValueKind "Fix64" .Fix64 value
  | "UFix64" => parseStringValueKind "UFix64" .UFix64 value
  | "Array" =>
    match value with
    | .obj o =>
      match h : jsonGet o "value" with
      | some (.arr arr) => (decodeArrayItems arr).map (fun cs => .Array cs)
      | _ => .error (.InvalidCadenceValue "Array value must be an array")
    | _ => .error (.InvalidCadenceValue "Array value must be an object")
  | "Dictionary" =>
    match value with
    | .obj o =>
      match h : jsonGet o "value" with
      | some (.arr arr) => (decodeDictionaryItems arr).map (fun es => .Dictionary es)
      | _ => .error (.InvalidCadenceValue "Dictionary value must be an array")
    | _ => .error (.InvalidCadenceValue "Dictionary value must be an object")
  | "Struct" => (parseCompositeValue "Struct" value).map (fun cv => .Struct cv)
  | "Resource" => (parseCompositeValue "Resource" value).map (fun cv => .Resource cv)
  | "Event" => (parseCompositeValue "Event" value).map (fun cv => .Event cv)
  | "Contract" => (parseCompositeValue "Contract" value).map (fun cv => .Contract cv)
  | "Enum" => (parseCompositeValue "Enum" value).map (fun cv => .Enum cv)
  | _ => .error (.UnsupportedType type_name)
termination_by 2 * sizeOf value + 1
decreasing_by
  all_goals simp_wf
  all_goals try omega
  all_goals (have hb := sizeOf_of_jsonGet h; simp at hb; omega)

/-- The entry loop of the `Dictionary` arm: each entry must be an object
with `"key"` and `"value"` members, both decoded recursively. -/
def decodeDictionaryItems : List JsonValue → Except Error (List DictionaryEntry)
  | [] => .ok []
  | item :: rest =>
    match item with
    | .obj entry_obj =>
      match h1 : jsonGet entry_obj "key" with
      | none => .error (.InvalidCadenceValue "Dictionary entry missing key")
      | some key =>
        match h2 : jsonGet entry_obj "value" with
        | none => .error (.InvalidCadenceValue "Dictionary entry missing value")
        | some v => do
          let k ← value_to_cadence_value key
          let vv ← value_to_cadence_value v
          let rest' ← decodeDictionaryItems rest
          .ok (DictionaryEntry.mk k vv :: rest')
    | _ => .error (.InvalidCadenceValue "Dictionary entry must be an object")
termination_by l => 2 * sizeOf l
decreasing_by
  all_goals simp_wf
  all_goals try omega
  all_goals (first
    | (have hb := sizeOf_of_jsonGet h1; omega)
    | (have hb := sizeOf_of_jsonGet h2; omega))

/-- The shared body of the composite arms (`Struct`/`Resource`/`Event`/
`Contract`/`Enum`): payload must be an object whose `"value"` member is an
object carrying a string `"id"` and an array `"fields"`. -/
def parseCompositeValue (type_name : String) (value : JsonValue) :
    Except Error CompositeValue :=
  match value with
  | .obj o =>
    match h : jsonGet o "value" with
    | some (.obj composite_obj) =>
      match jsonGet composite_obj "id" with
      | none => .error (.InvalidCadenceValue (type_name ++ " value missing id"))
      | some idv =>
        match idv with
        | .str id =>
          match h2 : jsonGet composite_obj "fields" with
          | none => .error (.InvalidCadenceValue (type_name ++ " value missing fields"))
          | some fieldsv =>
            match fieldsv with
            | .arr arr => (decodeCompositeFields arr).map (fun fs => CompositeValue.mk id fs)
            | _ => .error (.InvalidCadenceValue "Fields must be an array")
        | _ => .error (.InvalidCadenceValue (type_name ++ " id must be a string"))
    | _ => .error (.InvalidCadenceValue (type_name ++ " value must be an object"))
  | _ => .error (.InvalidCadenceValue (type_name ++ " value must be an object"))
termination_by 2 * sizeOf value
decreasing_by
  all_goals simp_wf
  all_goals (have hb := sizeOf_of_jsonGet h; have hb2 := sizeOf_of_jsonGet h2; simp at hb hb2; omega)

/-- The field loop of the composite arms: each field must be an object with
a string `"name"` and a `"value"` decoded recursively. -/
def decodeCompositeFields : List JsonValue → Except Error (List CompositeField)
  | [] => .ok []
  | field :: rest =>
    match field with
    | .obj field_obj =>
      match jsonGet field_obj "name" with
      | none => .error (.InvalidCadenceValue "Field missing name")
      | some namev =>
        match namev with
        | .str name =>
          match h : jsonGet field_obj "value" with
          | none => .error (.InvalidCadenceValue "Field missing value")
          | some v => do
            let cv ← value_to_cadence_value v
            let rest' ← decodeCompositeFields rest
            .ok (CompositeField.mk name cv :: rest')
        | _ => .error (.InvalidCadenceValue "Field name must be a string")
    | _ => .error (.InvalidCadenceValue "Field must be an object")
termination_by l => 2 * sizeOf l
decreasing_by
  all_goals simp_wf
  all_goals try omega
  all_goals (have hb := sizeOf_of_jsonGet h; omega)

end

/-- The `{"type": tag, "value": payload}` envelope as built by the encoder:
two `Map::insert` calls on a fresh map. -/
def envelope (tag : String) (payload : JsonValue) : JsonValue :=
  .obj (mapInsert (mapInsert [] "type" (.str tag)) "value" payload)

mutual

/-- Rust `cadence_value_to_value` (`src/conversion.rs`): convert a
`CadenceValue` to a `serde_json::Value`.  Every supported kind builds a
fresh map, inserts `"type"` and (except `Void`) `"value"`; the
type-descriptor kinds (`Path`, `Type`, `InclusiveRange`, `Capability`,
`Function`) fall to the catch-all and fail with `UnsupportedType`. -/
def cadence_value_to_value : CadenceValue → Except Error JsonValue
  | .Void => .ok (.obj (mapInsert [] "type" (.str "Void")))
  | .Optional value =>
    match value with
    | some v => (cadence_value_to_value v).map (fun inner => envelope "Optional" inner)
    | none => .ok (envelope "Optional" .null)
  | .Bool b => .ok (envelope "Bool" (.bool b))
  | .String s => .ok (envelope "String" (.str s))
  | .Address s => .ok (envelope "Address" (.str s))
  | .Int s => .ok (envelope "Int" (.str s))
  | .Int8 s => .ok (envelope "Int8" (.str s))
  | .Int16 s => .ok (envelope "Int16" (.str s))
  | .Int32 s => .ok (envelope "Int32" (.str s))
  | .Int64 s => .ok (envelope "Int64" (.str s))
  | .Int128 s => .ok (envelope "Int128" (.str s))
  | .Int256 s => .ok (envelope "Int256" (.str s))
  | .UInt s => .ok (envelope "UInt" (.str s))
  | .UInt8 s => .ok (envelope "UInt8" (.str s))
  | .UInt16 s => .ok (envelope "UInt16" (.str s))
  | .UInt32 s => .ok (envelope "UInt32" (.str s))
  | .UInt64 s => .ok (envelope "UInt64" (.str s))
  | .UInt128 s => .ok (envelope "UInt128" (.str s))
  | .UInt256 s => .ok (envelope "UInt256" (.str s))
  | .Word8 s => .ok (envelope "Word8" (.str s))
  | .Word16 s => .ok (envelope "Word16" (.str s))
  | .Word32 s => .ok (envelope "Word32" (.str s))
  | .Word64 s => .ok (envelope "Word64" (.str s))
  | .Word128 s => .ok (envelope "Word128" (.str s))
  | .Word256 s => .ok (envelope "Word256" (.str s))
  | .Fix64 s => .ok (envelope "Fix64" (.str s))
  | .UFix64 s => .ok (envelope "UFix64" (.str s))
  | .Array value => (encodeArrayItems value).map (fun arr => envelope "Array" (.arr arr))
  | .Dictionary value =>
      (encodeDictionaryEntries value).map (fun es => envelope "Dictionary" (.arr es))
  | .Struct cv => encodeComposite "Struct" cv
  | .Resource cv => encodeComposite "Resource" cv
  | .Event cv => encodeComposite "Event" cv
  | .Contract cv => encodeComposite "Contract" cv
  | .Enum cv => encodeComposite "Enum" cv
  | v => .error (.UnsupportedType ("Unsupported type for conversion to JSON: " ++ rustDebug v))

/-- The element loop of the `Array` encode arm. -/
def encodeArrayItems : List CadenceValue → Except Error (List JsonValue)
  | [] => .ok []
  | item :: rest => do
    let j ← cadence_value_to_value item
    let js ← encodeArrayItems rest
    .ok (j :: js)

/-- The entry loop of the `Dictionary` encode arm: each entry becomes an
object with `"key"` and `"value"` members. -/
def encodeDictionaryEntries : List DictionaryEntry → Except Error (List JsonValue)
  | [] => .ok []
  | .mk key value :: rest => do
    let kj ← cadence_value_to_value key
    let vj ← cadence_value_to_value value
    let rest' ← encodeDictionaryEntries rest
    .ok (.obj (mapInsert (mapInsert [] "key" kj) "value" vj) :: rest')

/-- The shared body of the composite encode arms: the payload is
`{"id": ..., "fields": [{"name": ..., "value": ...}, ...]}`. -/
def encodeComposite (type_name : String) (cv : CompositeValue) : Except Error JsonValue :=
  match cv with
  | .mk id fields =>
    (encodeCompositeFields fields).map (fun fs =>
      envelope type_name (.obj (mapInsert (mapInsert [] "id" (.str id)) "fields" (.arr fs))))

/-- The field loop of the composite encode arms. -/
def encodeCompositeFields : List CompositeField → Except Error (List JsonValue)
  | [] => .ok []
  | .mk name value :: rest => do
    let vj ← cadence_value_to_value value
    let rest' ← encodeCompositeFields rest
    .ok (.obj (mapInsert (mapInsert [] "name" (.str name)) "value" vj) :: rest')

end

/-- The discriminator string the encoder writes for each kind (for the five
kinds the encoder rejects, the wire tag declared by the serde rename
attributes in `src/lib.rs`). -/
def kindTag : CadenceValue → String
  | .Void => "Void"
  | .Optional _ => "Optional"
  | .Bool _ => "Bool"
  | .String _ => "String"
  | .Address _ => "Address"
  | .Int _ => "Int"
  | .Int8 _ => "Int8"
  | .Int16 _ => "Int16"
  | .Int32 _ => "Int32"
  | .Int64 _ => "Int64"
  | .Int128 _ => "Int128"
  | .Int256 _ => "Int256"
  | .UInt _ => "UInt"
  | .UInt8 _ => "UInt8"
  | .UInt16 _ => "UInt16"
  | .UInt32 _ => "UInt32"
  | .UInt64 _ => "UInt64"
  | .UInt128 _ => "UInt128"
  | .UInt256 _ => "UInt256"
  | .Word8 _ => "Word8"
  | .Word16 _ => "Word16"
  | .Word32 _ => "Word32"
  | .Word64 _ => "Word64"
  | .Word128 _ => "Word128"
  | .Word256 _ => "Word256"
  | .Fix64 _ => "Fix64"
  | .UFix64 _ => "UFix64"
  | .Array _ => "Array"
  | .Dictionary _ => "Dictionary"
  | .Struct _ => "Struct"
  | .Resource _ => "Resource"
  | .Event _ => "Event"
  | .Contract _ => "Contract"
  | .Enum _ => "Enum"
  | .Path _ => "Path"
  | .Type _ => "Type"
  | .InclusiveRange _ => "InclusiveRange"
  | .Capability _ => "Capability"
  | .Function _ => "Function"

/-- The full set of wire discriminator strings of the Cadence-JSON format
(spec section 6). -/
def wireTags : List String :=
  ["Void", "Optional", "Bool", "String", "Address",
   "Int", "Int8", "Int16", "Int32", "Int64", "Int128", "Int256",
   "UInt", "UInt8", "UInt16", "UInt32", "UInt64", "UInt128", "UInt256",
   "Word8", "Word16", "Word32", "Word64", "Word128", "Word256",
   "Fix64", "UFix64", "Array", "Dictionary",
   "Struct", "Resource", "Event", "Contract", "Enum",
   "Path", "Type", "InclusiveRange", "Capability", "Function"]

/-- The primitive kind tags whose structured payload must be an object
wrapping a `"value"` member. -/
def primitivePayloadTags : List String :=
  ["Bool", "String", "Address",
   "Int", "Int8", "Int16", "Int32", "Int64", "Int128", "Int256",
   "UInt", "UInt8", "UInt16", "UInt32", "UInt64", "UInt128", "UInt256",
   "Word8", "Word16", "Word32", "Word64", "Word128", "Word256",
   "Fix64", "UFix64"]

/-- A bare (non-container) JSON tree: null, boolean, number or string. -/
def JsonValue.isPrimitive : JsonValue → Bool
  | .null => true
  | .bool _ => true
  | .num _ => true
  | .str _ => true
  | .arr _ => false
  | .obj _ => false

/-- Numeric value of a most-significant-first digit string. -/
def digitsVal : List Char → Nat
  | [] => 0
  | c :: rest => ((digitVal? c).getD 0) * 10 ^ rest.length + digitsVal rest

/-! ## Typed bindings (`src/impls.rs`)

Each `impl_int_to_cadence!(t, Variant)` expansion: encode renders the
native integer in decimal into its own wire kind; decode accepts that kind
or the unsized `Int`/`UInt` kinds, parses the decimal string at the native
width (`value.parse::<t>()`), and wraps a parse failure as
`Error::Custom("Failed to parse t: {e}")`; any other kind is a
`TypeMismatch`. Unsigned native values are modelled as `Nat`, signed as
`Int`, with the width bound carried by the parser. -/

/-- Rust `impl FromCadenceValue for CadenceValue` (identity). -/
def CadenceValue.from_cadence_value (value : CadenceValue) : Except Error CadenceValue :=
  .ok value

/-- Rust `impl ToCadenceValue for String`. -/
def String.to_cadence_value (s : String) : Except Error CadenceValue :=
  .ok (.String s)

/-- Rust `impl FromCadenceValue for String`. -/
def String.from_cadence_value (value : CadenceValue) : Except Error String :=
  match value with
  | .String value => .ok value
  | _ => .error (.TypeMismatch "String" (rustDebug value))

/-- Rust `impl ToCadenceValue for bool`. -/
def bool.to_cadence_value (b : Bool) : Except Error CadenceValue :=
  .ok (.Bool b)

/-- Rust `impl FromCadenceValue for bool`. -/
def bool.from_cadence_value (value : CadenceValue) : Except Error Bool :=
  match value with
  | .Bool value => .ok value
  | _ => .error (.TypeMismatch "Bool" (rustDebug value))

def u8.to_cadence_value (x : Nat) : Except Error CadenceValue :=
  .ok (.UInt8 (natToString x))

def u8.from_cadence_value (value : CadenceValue) : Except Error Nat :=
  match value with
  | .UInt8 value => (parseUnsignedChars 255 value.data).mapError
      (fun e => .Custom ("Failed to parse u8: " ++ parseIntErrorMessage e))
  | .Int value => (parseUnsignedChars 255 value.data).mapError
      (fun e => .Custom ("Failed to parse u8: " ++ parseIntErrorMessage e))
  | .UInt value => (parseUnsignedChars 255 value.data).mapError
      (fun e => .Custom ("Failed to parse u8: " ++ parseIntErrorMessage e))
  | _ => .error (.TypeMismatch "UInt8" (rustDebug value))

def u16.to_cadence_value (x : Nat) : Except Error CadenceValue :=
  .ok (.UInt16 (natToString x))

def u16.from_cadence_value (value : CadenceValue) : Except Error Nat :=
  match value with
  | .UInt16 value => (parseUnsignedChars 65535 value.data).mapError
      (fun e => .Custom ("Failed to parse u16: " ++ parseIntErrorMessage e))
  | .Int value => (parseUnsignedChars 65535 value.data).mapError
      (fun e => .Custom ("Failed to parse u16: " ++ parseIntErrorMessage e))
  | .UInt value => (parseUnsignedChars 65535 value.data).mapError
      (fun e => .Custom ("Failed to parse u16: " ++ parseIntErrorMessage e))
  | _ => .error (.TypeMismatch "UInt16" (rustDebug value))

def u32.to_cadence_value (x : Nat) : Except Error CadenceValue :=
  .ok (.UInt32 (natToString x))

def u32.from_cadence_value (value : CadenceValue) : Except Error Nat :=
  match value with
  | .UInt32 value => (parseUnsignedChars 4294967295 value.data).mapError
      (fun e => .Custom ("Failed to parse u32: " ++ parseIntErrorMessage e))
  | .Int value => (parseUnsignedChars 4294967295 value.data).mapError
      (fun e => .Custom ("Failed to parse u32: " ++ parseIntErrorMessage e))
  | .UInt value => (parseUnsignedChars 4294967295 value.data).mapError
      (fun e => .Custom ("Failed to parse u32: " ++ parseIntErrorMessage e))
  | _ => .error (.TypeMismatch "UInt32" (rustDebug value))

def u64.to_cadence_value (x : Nat) : Except Error CadenceValue :=
  .ok (.UInt64 (natToString x))

def u64.from_cadence_value (value : CadenceValue) : Except Error Nat :=
  match value with
  | .UInt64 value => (parseUnsignedChars u64Max value.data).mapError
      (fun e => .Custom ("Failed to parse u64: " ++ parseIntErrorMessage e))
  | .Int value => (parseUnsignedChars u64Max value.data).mapError
      (fun e => .Custom ("Failed to parse u64: " ++ parseIntErrorMessage e))
  | .UInt value => (parseUnsignedChars u64Max value.data).mapError
      (fun e => .Custom ("Failed to parse u64: " ++ parseIntErrorMessage e))
  | _ => .error (.TypeMismatch "UInt64" (rustDebug value))

def i8.to_cadence_value (x : Int) : Except Error CadenceValue :=
  .ok (.Int8 (intToString x))

def i8.from_cadence_value (value : CadenceValue) : Except Error Int :=
  match value with
  | .Int8 value => (parseSignedChars (-128) 127 value.data).mapError
      (fun e => .Custom ("Failed to parse i8: " ++ parseIntErrorMessage e))
  | .Int value => (parseSignedChars (-128) 127 value.data).mapError
      (fun e => .Custom ("Failed to parse i8: " ++ parseIntErrorMessage e))
  | .UInt value => (parseSignedChars (-128) 127 value.data).mapError
      (fun e => .Custom ("Failed to parse i8: " ++ parseIntErrorMessage e))
  | _ => .error (.TypeMismatch "Int8" (rustDebug value))

def i16.to_cadence_value (x : Int) : Except Error CadenceValue :=
  .ok (.Int16 (intToString x))

def i16.from_cadence_value (value : CadenceValue) : Except Error Int :=
  match value with
  | .Int16 value => (parseSignedChars (-32768) 32767 value.data).mapError
      (fun e => .Custom ("Failed to parse i16: " ++ parseIntErrorMessage e))
  | .Int value => (parseSignedChars (-32768) 32767 value.data).mapError
      (fun e => .Custom ("Failed to parse i16: " ++ parseIntErrorMessage e))
  | .UInt value => (parseSignedChars (-32768) 32767 value.data).mapError
      (fun e => .Custom ("Failed to parse i16: " ++ parseIntErrorMessage e))
  | _ => .error (.TypeMismatch "Int16" (rustDebug value))

def i32.to_cadence_value (x : Int) : Except Error CadenceValue :=
  .ok (.Int32 (intToString x))

def i32.from_cadence_value (value : CadenceValue) : Except Error Int :=
  match value with
  | .Int32 value => (parseSignedChars (-2147483648) 2147483647 value.data).mapError
      (fun e => .Custom ("Failed to parse i32: " ++ parseIntErrorMessage e))
  | .Int value => (parseSignedChars (-2147483648) 2147483647 value.data).mapError
      (fun e => .Custom ("Failed to parse i32: " ++ parseIntErrorMessage e))
  | .UInt value => (parseSignedChars (-2147483648) 2147483647 value.data).mapError
      (fun e => .Custom ("Failed to parse i32: " ++ parseIntErrorMessage e))
  | _ => .error (.TypeMismatch "Int32" (rustDebug value))

def i64.to_cadence_value (x : Int) : Except Error CadenceValue :=
  .ok (.Int64 (intToString x))

def i64.from_cadence_value (value : CadenceValue) : Except Error Int :=
  match value with
  | .Int64 value => (parseSignedChars (-9223372036854775808) 9223372036854775807 value.data).mapError
      (fun e => .Custom ("Failed to parse i64: " ++ parseIntErrorMessage e))
  | .Int value => (parseSignedChars (-9223372036854775808) 9223372036854775807 value.data).mapError
      (fun e => .Custom ("Failed to parse i64: " ++ parseIntErrorMessage e))
  | .UInt value => (parseSignedChars (-9223372036854775808) 9223372036854775807 value.data).mapError
      (fun e => .Custom ("Failed to parse i64: " ++ parseIntErrorMessage e))
  | _ => .error (.TypeMismatch "Int64" (rustDebug value))

/-! ## Native map bindings (`impls.rs`: `FromCadenceValue` for
`HashMap<K, V>` and `BTreeMap<K, V>`)

A native map is modelled as an association list with distinct keys;
`mapNativeInsert` is the shared semantics of `HashMap::insert` and
`BTreeMap::insert` (replace the value of an existing key, otherwise add
the pair — the two differ only in where the pair physically lives, which
`mapNativeLookup`/`countKey` are insensitive to). -/

def mapNativeInsert {κ ν : Type} [DecidableEq κ] : List (κ × ν) → κ → ν → List (κ × ν)
  | [], k, v => [(k, v)]
  | (k', v') :: rest, k, v =>
    if k = k' then (k, v) :: rest else (k', v') :: mapNativeInsert rest k v

def mapNativeLookup {κ ν : Type} [DecidableEq κ] : List (κ × ν) → κ → Option ν
  | [], _ => none
  | (k', v') :: rest, k => if k = k' then some v' else mapNativeLookup rest k

/-- Number of entries of the map carrying the key `k`. -/
def countKey {κ ν : Type} [DecidableEq κ] (m : List (κ × ν)) (k : κ) : Nat :=
  (m.filter (fun p => p.1 = k)).length

/-- The value of the last pair with key `k` in list order, if any. -/
def lastVal {κ ν : Type} [DecidableEq κ] : List (κ × ν) → κ → Option ν
  | [], _ => none
  | p :: ps, k =>
    match lastVal ps k with
    | some v => some v
    | none => if p.1 = k then some p.2 else none

/-- The entry loop shared by the `HashMap` and `BTreeMap`
`from_cadence_value` impls: decode key then value of each entry in list
order and `insert` the pair. -/
def mapFromEntries {κ ν : Type} [DecidableEq κ] (fromK : CadenceValue → Except Error κ)
    (fromV : CadenceValue → Except Error ν) :
    List DictionaryEntry → List (κ × ν) → Except Error (List (κ × ν))
  | [], acc => .ok acc
  | entry :: rest, acc => do
    let k ← fromK entry.key
    let v ← fromV entry.value
    mapFromEntries fromK fromV rest (mapNativeInsert acc k v)

/-- Rust `impl FromCadenceValue for HashMap<K, V>` (`impls.rs`): only a
Dictionary decodes; entries are decoded and inserted in list order. -/
def HashMap.from_cadence_value {κ ν : Type} [DecidableEq κ]
    (fromK : CadenceValue → Except Error κ) (fromV : CadenceValue → Except Error ν)
    (value : CadenceValue) : Except Error (List (κ × ν)) :=
  match value with
  | .Dictionary value => mapFromEntries fromK fromV value []
  | _ => .error (.TypeMismatch "Dictionary" (rustDebug value))

/-- Rust `impl FromCadenceValue for BTreeMap<K, V>` (`impls.rs`): identical
body. -/
def BTreeMap.from_cadence_value {κ ν : Type} [DecidableEq κ]
    (fromK : CadenceValue → Except Error κ) (fromV : CadenceValue → Except Error ν)
    (value : CadenceValue) : Except Error (List (κ × ν)) :=
  match value with
  | .Dictionary value => mapFromEntries fromK fromV value []
  | _ => .error (.TypeMismatch "Dictionary" (rustDebug value))

/-- Keys of the map, distinctness invariant. -/
def nodupKeys {κ ν : Type} (m : List (κ × ν)) : Prop := (m.map Prod.fst).Nodup

set_option linter.unusedVariables false in
set_option linter.unreachableTactic false in
/-- Sanity lemma keeping the decoder executable through `simp`:
decoding `null` is `Optional(None)`. -/
theorem value_to_cadence_value_null : value_to_cadence_value .null = .ok (.Optional none) := by
  simp [value_to_cadence_value]

/-! ## Helper lemmas about the envelope maps -/


theorem mapInsert_type_value (t p : JsonValue) :
    mapInsert (mapInsert [] "type" t) "value" p = [("type", t), ("value", p)] := by
  simp only [mapInsert]
  rw [if_neg (by decide), if_neg (by norm_num; decide)]

theorem mapInsert_id_fields (i f : JsonValue) :
    mapInsert (mapInsert [] "id" i) "fields" f = [("fields", f), ("id", i)] := by
  simp only [mapInsert]
  rw [if_neg (by decide), if_pos (by norm_num; decide)]

theorem mapInsert_key_value (k v : JsonValue) :
    mapInsert (mapInsert [] "key" k) "value" v = [("key", k), ("value", v)] := by
  simp only [mapInsert]
  rw [if_neg (by decide), if_neg (by norm_num; decide)]

theorem mapInsert_name_value (n v : JsonValue) :
    mapInsert (mapInsert [] "name" n) "value" v = [("name", n), ("value", v)] := by
  simp only [mapInsert]
  rw [if_neg (by decide), if_neg (by norm_num; decide)]

theorem envelope_gets (tag : String) (p : JsonValue) :
    envelope tag p = .obj [("type", .str tag), ("value", p)] := by
  simp [envelope, mapInsert_type_value]

/-- A tag outside the wire discriminator set falls to the catch-all of
`parse_structured_cadence_value`. -/
theorem parse_structured_unknown_tag (tag : String) (v : JsonValue) (hne : tag ∉ wireTags) :
    parse_structured_cadence_value tag v = .error (.UnsupportedType tag) := by
  unfold parse_structured_cadence_value
  split
  all_goals simp_all [wireTags]

/-- The per-member loop of the implicit-Dictionary branch is the monadic
map of the single-member decode. -/
theorem decodeObjectEntries_eq_mapM (ms : List (String × JsonValue)) :
    decodeObjectEntries ms = ms.mapM (fun kv =>
      (value_to_cadence_value kv.2).map (fun c => DictionaryEntry.mk (.String kv.1) c)) := by
  induction ms with
  | nil => rw [List.mapM_nil]; simp [decodeObjectEntries, pure, Except.pure]
  | cons hd tl ih =>
    obtain ⟨k, v⟩ := hd
    rw [List.mapM_cons]
    simp only [decodeObjectEntries, ← ih]
    cases hv : value_to_cadence_value v
    · simp [Except.map, Except.bind, bind]
    · cases hr : decodeObjectEntries tl <;>
        simp [Except.map, Except.bind, bind, pure, Except.pure]

/-- An object lacking the envelope shape decodes through the
implicit-Dictionary branch. -/
theorem decode_obj_nonenvelope (ms : List (String × JsonValue))
    (h : ¬ ∃ s v, jsonGet ms "type" = some (.str s) ∧ jsonGet ms "value" = some v) :
    value_to_cadence_value (.obj ms) = (decodeObjectEntries ms).map CadenceValue.Dictionary := by
  rw [value_to_cadence_value]
  split
  · rename_i tname vf heq1 heq2
    exact absurd ⟨tname, vf, heq1, heq2⟩ h
  · rfl

/-! ## Claims about the structural transcoder -/

/-- C1: the claimed full round trip `decode(encode(v)) = Ok(v)` fails on the
directly-constructed value `Bool(true)`, a kind the baseline encoder
supports: the encoder emits `{"type":"Bool","value":true}` and the decoder
rejects exactly that tree because it requires the `Bool` payload to be an
object containing a `"value"` member. -/
theorem decode_encode_roundtrip_fails_on_bool :
    cadence_value_to_value (.Bool true) =
      .ok (.obj [("type", .str "Bool"), ("value", .bool true)]) ∧
    value_to_cadence_value (.obj [("type", .str "Bool"), ("value", .bool true)]) =
      .error (.InvalidCadenceValue "Bool value must be an object") := by
  constructor
  · simp [cadence_value_to_value, envelope, mapInsert_type_value]
  · simp [value_to_cadence_value, jsonGet, parse_structured_cadence_value]

/-- C2 (counterexample): encoding `Void` produces an object with no
`"value"` member, only `{"type":"Void"}`. -/
theorem encode_void_omits_value_member :
    cadence_value_to_value .Void = .ok (.obj [("type", .str "Void")]) ∧
    jsonGet [("type", JsonValue.str "Void")] "value" = none := by
  constructor
  · simp [cadence_value_to_value, mapInsert]
  · simp [jsonGet]

/-- C2 (amended): for every `CadenceValue` on which the structural encoder
succeeds, the result is a JSON object whose `"type"` member holds the
kind's discriminator string, and for every kind except `Void` the object
also has a `"value"` member; `Void` encodes to an object holding only the
`"type"` member. -/
theorem encode_envelope_shape :
    (∀ v w, cadence_value_to_value v = .ok w → v ≠ .Void →
      ∃ ms p, w = .obj ms ∧ jsonGet ms "type" = some (.str (kindTag v)) ∧
        jsonGet ms "value" = some p) ∧
    cadence_value_to_value .Void = .ok (.obj [("type", .str "Void")]) ∧
    jsonGet [("type", JsonValue.str "Void")] "type" = some (.str (kindTag .Void)) ∧
    jsonGet [("type", JsonValue.str "Void")] "value" = none := by
  refine ⟨?_, by simp [cadence_value_to_value, mapInsert],
    by simp [jsonGet, kindTag], by simp [jsonGet]⟩
  intro v w h hv
  have hshape : ∃ p, w = envelope (kindTag v) p := by
    cases v
    case Void => exact absurd rfl hv
    case Optional value =>
      simp only [kindTag]
      cases value with
      | none =>
        simp only [cadence_value_to_value] at h
        cases h <;> exact ⟨_, rfl⟩
      | some inner =>
        simp only [cadence_value_to_value] at h
        cases henc : cadence_value_to_value inner <;> rw [henc] at h
        · exact Except.noConfusion h
        · simp only [Except.map] at h
          cases h <;> exact ⟨_, rfl⟩
    case Array value =>
      simp only [kindTag]
      simp only [cadence_value_to_value] at h
      cases henc : encodeArrayItems value <;> rw [henc] at h
      · exact Except.noConfusion h
      · simp only [Except.map] at h
        cases h <;> exact ⟨_, rfl⟩
    case Dictionary value =>
      simp only [kindTag]
      simp only [cadence_value_to_value] at h
      cases henc : encodeDictionaryEntries value <;> rw [henc] at h
      · exact Except.noConfusion h
      · simp only [Except.map] at h
        cases h <;> exact ⟨_, rfl⟩
    case Struct cv =>
      obtain ⟨id, fields⟩ := cv
      simp only [kindTag]
      simp only [cadence_value_to_value, encodeComposite] at h
      cases henc : encodeCompositeFields fields <;> rw [henc] at h
      · exact Except.noConfusion h
      · simp only [Except.map] at h
        cases h <;> exact ⟨_, rfl⟩
    case Resource cv =>
      obtain ⟨id, fields⟩ := cv
      simp only [kindTag]
      simp only [cadence_value_to_value, encodeComposite] at h
      cases henc : encodeCompositeFields fields <;> rw [henc] at h
      · exact Except.noConfusion h
      · simp only [Except.map] at h
        cases h <;> exact ⟨_, rfl⟩
    case Event cv =>
      obtain ⟨id, fields⟩ := cv
      simp only [kindTag]
      simp only [cadence_value_to_value, encodeComposite] at h
      cases henc : encodeCompositeFields fields <;> rw [henc] at h
      · exact Except.noConfusion h
      · simp only [Except.map] at h
        cases h <;> exact ⟨_, rfl⟩
    case Contract cv =>
      obtain ⟨id, fields⟩ := cv
      simp only [kindTag]
      simp only [cadence_value_to_value, encodeComposite] at h
      cases henc : encodeCompositeFields fields <;> rw [henc] at h
      · exact Except.noConfusion h
      · simp only [Except.map] at h
        cases h <;> exact ⟨_, rfl⟩
    case Enum cv =>
      obtain ⟨id, fields⟩ := cv
      simp only [kindTag]
      simp only [cadence_value_to_value, encodeComposite] at h
      cases henc : encodeCompositeFields fields <;> rw [henc] at h
      · exact Except.noConfusion h
      · simp only [Except.map] at h
        cases h <;> exact ⟨_, rfl⟩
    all_goals simp only [kindTag]
    all_goals simp only [cadence_value_to_value] at h
    all_goals try (cases h <;> exact ⟨_, rfl⟩)
    all_goals exact Except.noConfusion h
  obtain ⟨p, rfl⟩ := hshape
  rw [envelope_gets]
  exact ⟨_, p, rfl, by simp [jsonGet], by simp [jsonGet]⟩

/-- C2 witness: the shape law applied at `Bool(true)`. -/
theorem encode_envelope_shape_witness :
    ∃ ms p, (JsonValue.obj [("type", .str "Bool"), ("value", .bool true)]) = .obj ms ∧
      jsonGet ms "type" = some (.str (kindTag (.Bool true))) ∧
      jsonGet ms "value" = some p :=
  encode_envelope_shape.1 (.Bool true) _
    (by simp [cadence_value_to_value, envelope, mapInsert_type_value]) (by simp)

/-- C3 (counterexample): the bare scalar `18446744073709551615` (an integral
JSON number, stored by serde_json as a `u64` above `i64::MAX`) does not
decode to `Int` carrying its decimal string. -/
theorem decode_large_integral_scalar_not_int :
    value_to_cadence_value (.num (.posInt 18446744073709551615)) ≠
      .ok (.Int "18446744073709551615") := by
  simp [value_to_cadence_value, JsonNumber.isI64, JsonNumber.isU64, JsonNumber.toString, i64Max]

/-- C3 (amended): bare-scalar inference decodes `null` to `Optional(None)`,
a boolean to `Bool`, a string to `String`; an integral number representable
as `i64` decodes to `Int` carrying its decimal string, an integral number
above `i64::MAX` (a bare `u64`) decodes to `UInt` carrying its decimal
string, and a number stored as floating point decodes to `Fix64` carrying
its printed form. -/
theorem decode_bare_scalar_inference :
    value_to_cadence_value .null = .ok (.Optional none) ∧
    (∀ b, value_to_cadence_value (.bool b) = .ok (.Bool b)) ∧
    (∀ s, value_to_cadence_value (.str s) = .ok (.String s)) ∧
    (∀ n : Nat, n ≤ u64Max →
      value_to_cadence_value (.num (.posInt n)) =
        .ok (if n ≤ i64Max then .Int (natToString n) else .UInt (natToString n))) ∧
    (∀ i : Int, -(2 ^ 63) ≤ i → i < 0 →
      value_to_cadence_value (.num (.negInt i)) = .ok (.Int (intToString i))) ∧
    (∀ s, value_to_cadence_value (.num (.float s)) = .ok (.Fix64 s)) := by
  refine ⟨by simp [value_to_cadence_value], by simp [value_to_cadence_value],
    by simp [value_to_cadence_value], ?_, ?_, ?_⟩
  · intro n hn
    by_cases hle : n ≤ i64Max <;>
      simp [value_to_cadence_value, JsonNumber.isI64, JsonNumber.isU64, JsonNumber.toString, hle]
  · intro i hlo hneg
    simp [value_to_cadence_value, JsonNumber.isI64, JsonNumber.toString]
  · intro s
    simp [value_to_cadence_value, JsonNumber.isI64, JsonNumber.isU64, JsonNumber.toString]

/-- C3 witness: the inference law applied at the bare scalar `5`. -/
theorem decode_bare_scalar_inference_witness :
    (5 : Nat) ≤ u64Max ∧
    value_to_cadence_value (.num (.posInt 5)) =
      .ok (if (5 : Nat) ≤ i64Max then .Int (natToString 5) else .UInt (natToString 5)) :=
  ⟨by norm_num [u64Max], decode_bare_scalar_inference.2.2.2.1 5 (by norm_num [u64Max])⟩

/-- C4: decoding an object whose `"type"` string is not one of the wire
discriminator tags and which carries a `"value"` member fails with the
unknown-kind error (realized as `Error::UnsupportedType`) holding the tag. -/
theorem decode_unknown_kind_fails (tag : String) (ms : List (String × JsonValue))
    (v : JsonValue) (hne : tag ∉ wireTags)
    (ht : jsonGet ms "type" = some (.str tag))
    (hv : jsonGet ms "value" = some v) :
    value_to_cadence_value (.obj ms) = .error (.UnsupportedType tag) := by
  rw [value_to_cadence_value]
  rw [ht, hv]
  exact parse_structured_unknown_tag tag v hne

/-- C4 witness: `{"type":"Frobnicate","value":null}` fails with
`UnsupportedType("Frobnicate")`. -/
theorem decode_unknown_kind_fails_witness :
    value_to_cadence_value (.obj [("type", .str "Frobnicate"), ("value", .null)]) =
      .error (.UnsupportedType "Frobnicate") :=
  decode_unknown_kind_fails "Frobnicate" _ .null (by decide) (by simp [jsonGet]) (by simp [jsonGet])

/-- C5 (counterexample): the structural transcoder's decode does not accept
a `Path` envelope: it fails with `UnsupportedType("Path")` instead of
producing a `Path` value. -/
theorem decode_path_envelope_fails :
    value_to_cadence_value (.obj [("type", .str "Path"),
      ("value", .obj [("domain", .str "storage"), ("identifier", .str "foo")])]) =
      .error (.UnsupportedType "Path") := by
  simp [value_to_cadence_value, jsonGet, parse_structured_cadence_value]

/-- C5 (amended): for each type-descriptor tag (`Path`, `Type`,
`InclusiveRange`, `Capability`, `Function`), the structural transcoder has
no decoder: `parse_structured_cadence_value` fails with
`UnsupportedType(tag)` for every payload; and encoding a value of any of
those kinds likewise fails with an explicit `UnsupportedType` error rather
than producing a lossy tree. -/
theorem type_descriptor_kinds_unsupported :
    (∀ tag, tag ∈ (["Path", "Type", "InclusiveRange", "Capability", "Function"] : List String) →
      ∀ v, parse_structured_cadence_value tag v = .error (.UnsupportedType tag)) ∧
    (∀ p, ∃ m, cadence_value_to_value (.Path p) = .error (.UnsupportedType m)) ∧
    (∀ t, ∃ m, cadence_value_to_value (.Type t) = .error (.UnsupportedType m)) ∧
    (∀ r, ∃ m, cadence_value_to_value (.InclusiveRange r) = .error (.UnsupportedType m)) ∧
    (∀ c, ∃ m, cadence_value_to_value (.Capability c) = .error (.UnsupportedType m)) ∧
    (∀ f, ∃ m, cadence_value_to_value (.Function f) = .error (.UnsupportedType m)) := by
  refine ⟨?_, ?_, ?_, ?_, ?_, ?_⟩
  · intro tag htag v
    fin_cases htag <;> simp [parse_structured_cadence_value]
  all_goals intro x
  all_goals simp only [cadence_value_to_value]
  all_goals exact ⟨_, rfl⟩

/-- C5 witness: the decode half applied at tag `"Path"`, payload `null`. -/
theorem type_descriptor_kinds_unsupported_witness :
    parse_structured_cadence_value "Path" .null = .error (.UnsupportedType "Path") :=
  type_descriptor_kinds_unsupported.1 "Path" (by simp) .null

/-- C6: an object lacking the envelope shape (no string `"type"` member
together with a `"value"` member) decodes as an implicit Dictionary: one
entry per member in the object's own member order, key
`String(member name)`, value the recursive decode of the member value,
propagating any member failure. -/
theorem decode_implicit_dictionary (ms : List (String × JsonValue))
    (h : ¬ ∃ s v, jsonGet ms "type" = some (.str s) ∧ jsonGet ms "value" = some v) :
    value_to_cadence_value (.obj ms) =
      (ms.mapM (fun kv =>
        (value_to_cadence_value kv.2).map (fun c => DictionaryEntry.mk (.String kv.1) c))).map
        CadenceValue.Dictionary := by
  rw [decode_obj_nonenvelope ms h, decodeObjectEntries_eq_mapM]

/-- C6 witness: the implicit-Dictionary law applied at `{"a": true}`. -/
theorem decode_implicit_dictionary_witness :
    value_to_cadence_value (.obj [("a", .bool true)]) =
      (([("a", JsonValue.bool true)]).mapM (fun kv =>
        (value_to_cadence_value kv.2).map (fun c => DictionaryEntry.mk (.String kv.1) c))).map
        CadenceValue.Dictionary :=
  decode_implicit_dictionary _ (by simp [jsonGet])

/-- C10: for every primitive kind tag, the structured decode path accepts an
envelope only when the payload is itself an object carrying a `"value"`
member of the required shape; a bare primitive payload (as the encoder
itself emits) fails with an `InvalidCadenceValue` shape error. -/
theorem primitive_payload_requires_object :
    (∀ tag, tag ∈ primitivePayloadTags → ∀ v, v.isPrimitive = true →
      ∃ msg, parse_structured_cadence_value tag v = .error (.InvalidCadenceValue msg)) ∧
    parse_structured_cadence_value "Bool" (.bool true) =
      .error (.InvalidCadenceValue "Bool value must be an object") ∧
    parse_structured_cadence_value "Int" (.str "42") =
      .error (.InvalidCadenceValue "Int value must be an object") ∧
    (∀ o b, jsonGet o "value" = some (.bool b) →
      parse_structured_cadence_value "Bool" (.obj o) = .ok (.Bool b)) ∧
    (∀ o s, jsonGet o "value" = some (.str s) →
      parse_structured_cadence_value "Int" (.obj o) = .ok (.Int s)) := by
  refine ⟨?_, by simp [parse_structured_cadence_value],
    by simp [parse_structured_cadence_value, parseStringValueKind], ?_, ?_⟩
  · intro tag htag v hv
    fin_cases htag <;> cases v <;>
      first
        | (simp only [parse_structured_cadence_value, parseStringValueKind]; exact ⟨_, rfl⟩)
        | (exfalso; simp [JsonValue.isPrimitive] at hv)
  · intro o b hget
    simp only [parse_structured_cadence_value]
    rw [hget]
  · intro o s hget
    simp only [parse_structured_cadence_value, parseStringValueKind]
    rw [hget]

/-- C10 witness: the shape law applied at tag `"Bool"`, bare payload
`true`. -/
theorem primitive_payload_requires_object_witness :
    ∃ msg, parse_structured_cadence_value "Bool" (.bool true) =
      .error (.InvalidCadenceValue msg) :=
  primitive_payload_requires_object.1 "Bool" (by simp [primitivePayloadTags]) (.bool true) rfl

/-! ## Correctness of the decimal digit loop -/

theorem digitVal?_digitChar {d : Nat} (h : d < 10) :
    digitVal? (Nat.digitChar d) = some d := by
  interval_cases d <;> decide

theorem ne_sign_of_digit {c : Char} (h : (digitVal? c).isSome) : c ≠ '+' ∧ c ≠ '-' := by
  constructor <;> intro he <;> subst he <;> exact absurd h (by decide)

/-- The digit loop computes the decimal value of an all-digit string,
overflowing exactly when that value exceeds the bound. -/
theorem parseUDigits_spec (max : Nat) : ∀ (l : List Char) (acc : Nat),
    (∀ c ∈ l, (digitVal? c).isSome) → acc ≤ max →
    parseUDigits max acc l =
      if acc * 10 ^ l.length + digitsVal l ≤ max
      then .ok (acc * 10 ^ l.length + digitsVal l)
      else .error .posOverflow := by
  intro l
  induction l with
  | nil =>
    intro acc hdig hacc
    simp [parseUDigits, digitsVal, hacc]
  | cons c rest ih =>
    intro acc hdig hacc
    obtain ⟨d, hd⟩ := Option.isSome_iff_exists.mp (hdig c (by simp))
    have hd10 : d < 10 := by
      simp only [digitVal?] at hd
      split at hd
      · rename_i hc
        cases hd
        omega
      · exact Option.noConfusion hd
    have hpow : 1 ≤ 10 ^ rest.length := Nat.one_le_pow _ _ (by omega)
    have hval : acc * 10 ^ (c :: rest).length + digitsVal (c :: rest)
        = (acc * 10 + d) * 10 ^ rest.length + digitsVal rest := by
      simp only [digitsVal, hd, Option.getD_some, List.length_cons, pow_succ]
      ring
    simp only [parseUDigits, hd]
    split
    · rename_i hover
      have hge : acc * 10 + d ≤ (acc * 10 + d) * 10 ^ rest.length :=
        Nat.le_mul_of_pos_right _ (by omega)
      have hgt : ¬ (acc * 10 ^ (c :: rest).length + digitsVal (c :: rest) ≤ max) := by
        rw [hval]
        omega
      rw [if_neg hgt]
    · rename_i hok
      rw [ih (acc * 10 + d) (fun x hx => hdig x (by simp [hx])) (by omega), hval]

/-- The digit loop never returns a value above the bound. -/
theorem parseUDigits_le (max : Nat) : ∀ (l : List Char) (acc n : Nat),
    parseUDigits max acc l = .ok n → acc ≤ max → n ≤ max := by
  intro l
  induction l with
  | nil =>
    intro acc n h hacc
    simp only [parseUDigits] at h
    cases h
    exact hacc
  | cons c rest ih =>
    intro acc n h hacc
    simp only [parseUDigits] at h
    split at h
    · exact Except.noConfusion h
    · split at h
      · exact Except.noConfusion h
      · rename_i d hd hover
        exact ih _ _ h (by omega)

theorem natToDigits_ne_nil (n : Nat) : natToDigits n ≠ [] := by
  rw [natToDigits]
  split <;> simp

theorem natToDigits_digits (n : Nat) : ∀ c ∈ natToDigits n, (digitVal? c).isSome := by
  induction n using Nat.strong_induction_on with
  | _ n ih =>
    rw [natToDigits]
    split
    · rename_i h10
      intro c hc
      simp only [List.mem_singleton] at hc
      subst hc
      simp [digitVal?_digitChar h10]
    · rename_i h10
      intro c hc
      rw [List.mem_append] at hc
      rcases hc with hc | hc
      · exact ih (n / 10) (Nat.div_lt_self (by omega) (by omega)) c hc
      · simp only [List.mem_singleton] at hc
        subst hc
        simp [digitVal?_digitChar (Nat.mod_lt _ (by omega))]

theorem digitsVal_append_digit (l : List Char) (c : Char) :
    digitsVal (l ++ [c]) = 10 * digitsVal l + (digitVal? c).getD 0 := by
  induction l with
  | nil => simp [digitsVal]
  | cons x xs ih =>
    have hlen : (xs ++ [c]).length = xs.length + 1 := by
      simp
    simp only [List.cons_append, digitsVal, List.append_eq, ih, hlen, pow_succ]
    ring

/-- Rendering then revaluing a natural number is the identity. -/
theorem digitsVal_natToDigits (n : Nat) : digitsVal (natToDigits n) = n := by
  induction n using Nat.strong_induction_on with
  | _ n ih =>
    rw [natToDigits]
    split
    · rename_i h10
      simp [digitsVal, digitVal?_digitChar h10]
    · rename_i h10
      rw [digitsVal_append_digit, ih (n / 10) (Nat.div_lt_self (by omega) (by omega)),
        digitVal?_digitChar (Nat.mod_lt _ (by omega))]
      simp only [Option.getD_some]
      omega

/-- An all-digit nonempty string goes straight to the digit loop of the
unsigned parser. -/
theorem parseUnsignedChars_of_digits (max : Nat) (l : List Char)
    (hd : ∀ c ∈ l, (digitVal? c).isSome) (hne : l ≠ []) :
    parseUnsignedChars max l = parseUDigits max 0 l := by
  cases l with
  | nil => exact absurd rfl hne
  | cons c rest =>
    obtain ⟨hplus, hminus⟩ := ne_sign_of_digit (hd c (by simp))
    simp only [parseUnsignedChars, if_neg hplus, if_neg hminus]

/-- An all-digit nonempty string goes straight to the digit loop of the
signed parser (positive branch). -/
theorem parseSignedChars_of_digits (min max : Int) (l : List Char)
    (hd : ∀ c ∈ l, (digitVal? c).isSome) (hne : l ≠ []) :
    parseSignedChars min max l = (parseUDigits max.toNat 0 l).map Int.ofNat := by
  cases l with
  | nil => exact absurd rfl hne
  | cons c rest =>
    obtain ⟨hplus, hminus⟩ := ne_sign_of_digit (hd c (by simp))
    simp only [parseSignedChars, if_neg hplus, if_neg hminus]

/-- Rust `uN::from_str` of the decimal rendering of `n`: `Ok(n)` in range,
positive overflow above the bound — never wraparound or truncation. -/
theorem parseUnsignedChars_natToString (max n : Nat) :
    parseUnsignedChars max (natToString n).data =
      if n ≤ max then .ok n else .error .posOverflow := by
  have hdata : (natToString n).data = natToDigits n := rfl
  rw [hdata, parseUnsignedChars_of_digits max _ (natToDigits_digits n) (natToDigits_ne_nil n),
    parseUDigits_spec max _ 0 (natToDigits_digits n) (Nat.zero_le _)]
  simp [digitsVal_natToDigits]

/-- Rust `iN::from_str` of the decimal rendering of an in-range integer is the
identity. -/
theorem parseSignedChars_intToString (min max i : Int) (hminneg : min ≤ 0)
    (hmaxpos : 0 ≤ max) (hge : min ≤ i) (hle : i ≤ max) :
    parseSignedChars min max (intToString i).data = .ok i := by
  by_cases hneg : i < 0
  · have hdata : (intToString i).data = '-' :: natToDigits i.natAbs := by
      simp [intToString, hneg]
    rw [hdata]
    simp only [parseSignedChars]
    rw [if_neg (by decide), if_pos trivial, if_neg (natToDigits_ne_nil _),
      parseUDigits_spec _ _ 0 (natToDigits_digits _) (Nat.zero_le _)]
    have hcond : 0 * 10 ^ (natToDigits i.natAbs).length + digitsVal (natToDigits i.natAbs)
        ≤ (-min).toNat := by
      rw [digitsVal_natToDigits]
      omega
    rw [if_pos hcond]
    simp only [digitsVal_natToDigits, Nat.zero_mul, Nat.zero_add]
    simp [abs_of_neg hneg]
  · have hdata : (intToString i).data = natToDigits i.toNat := by
      simp [intToString, hneg, natToString]
    rw [hdata,
      parseSignedChars_of_digits min max _ (natToDigits_digits _) (natToDigits_ne_nil _),
      parseUDigits_spec _ _ 0 (natToDigits_digits _) (Nat.zero_le _)]
    have hcond : 0 * 10 ^ (natToDigits i.toNat).length + digitsVal (natToDigits i.toNat)
        ≤ max.toNat := by
      rw [digitsVal_natToDigits]
      omega
    rw [if_pos hcond]
    simp only [digitsVal_natToDigits, Except.map, Nat.zero_mul, Nat.zero_add]
    congr 1
    simpa using Int.toNat_of_nonneg (not_lt.mp hneg)

/-- The unsigned parser never returns a value above the bound. -/
theorem parseUnsignedChars_le (max : Nat) (l : List Char) (n : Nat)
    (h : parseUnsignedChars max l = .ok n) : n ≤ max := by
  unfold parseUnsignedChars at h
  split at h
  · exact Except.noConfusion h
  · split at h
    · split at h
      · exact Except.noConfusion h
      · exact parseUDigits_le max _ 0 n h (Nat.zero_le _)
    · split at h
      · split at h
        · exact Except.noConfusion h
        · exact parseUDigits_le max _ 0 n h (Nat.zero_le _)
      · exact parseUDigits_le max _ 0 n h (Nat.zero_le _)

/-! ## Binding round trips (typed primitive bindings, spec section 8) -/

theorem string_binding_roundtrip (s : String) :
    (String.to_cadence_value s).bind String.from_cadence_value = .ok s := rfl

theorem bool_binding_roundtrip (b : Bool) :
    (bool.to_cadence_value b).bind bool.from_cadence_value = .ok b := rfl

theorem u8_binding_roundtrip (n : Nat) (h : n ≤ 255) :
    (u8.to_cadence_value n).bind u8.from_cadence_value = .ok n := by
  simp only [u8.to_cadence_value, u8.from_cadence_value, Except.bind, bind]
  rw [parseUnsignedChars_natToString, if_pos h]
  rfl

theorem u16_binding_roundtrip (n : Nat) (h : n ≤ 65535) :
    (u16.to_cadence_value n).bind u16.from_cadence_value = .ok n := by
  simp only [u16.to_cadence_value, u16.from_cadence_value, Except.bind, bind]
  rw [parseUnsignedChars_natToString, if_pos h]
  rfl

theorem u32_binding_roundtrip (n : Nat) (h : n ≤ 4294967295) :
    (u32.to_cadence_value n).bind u32.from_cadence_value = .ok n := by
  simp only [u32.to_cadence_value, u32.from_cadence_value, Except.bind, bind]
  rw [parseUnsignedChars_natToString, if_pos h]
  rfl

theorem u64_binding_roundtrip (n : Nat) (h : n ≤ u64Max) :
    (u64.to_cadence_value n).bind u64.from_cadence_value = .ok n := by
  simp only [u64.to_cadence_value, u64.from_cadence_value, Except.bind, bind]
  rw [parseUnsignedChars_natToString, if_pos h]
  rfl

theorem i8_binding_roundtrip (i : Int) (hlo : -128 ≤ i) (hhi : i ≤ 127) :
    (i8.to_cadence_value i).bind i8.from_cadence_value = .ok i := by
  simp only [i8.to_cadence_value, i8.from_cadence_value, Except.bind, bind]
  rw [parseSignedChars_intToString _ _ _ (by norm_num) (by norm_num) hlo hhi]
  rfl

theorem i16_binding_roundtrip (i : Int) (hlo : -32768 ≤ i) (hhi : i ≤ 32767) :
    (i16.to_cadence_value i).bind i16.from_cadence_value = .ok i := by
  simp only [i16.to_cadence_value, i16.from_cadence_value, Except.bind, bind]
  rw [parseSignedChars_intToString _ _ _ (by norm_num) (by norm_num) hlo hhi]
  rfl

theorem i32_binding_roundtrip (i : Int) (hlo : -2147483648 ≤ i) (hhi : i ≤ 2147483647) :
    (i32.to_cadence_value i).bind i32.from_cadence_value = .ok i := by
  simp only [i32.to_cadence_value, i32.from_cadence_value, Except.bind, bind]
  rw [parseSignedChars_intToString _ _ _ (by norm_num) (by norm_num) hlo hhi]
  rfl

theorem i64_binding_roundtrip (i : Int)
    (hlo : -9223372036854775808 ≤ i) (hhi : i ≤ 9223372036854775807) :
    (i64.to_cadence_value i).bind i64.from_cadence_value = .ok i := by
  simp only [i64.to_cadence_value, i64.from_cadence_value, Except.bind, bind]
  rw [parseSignedChars_intToString _ _ _ (by norm_num) (by norm_num) hlo hhi]
  rfl

/-- C8: decoding a `UInt8` wire value into the 8-bit unsigned binding:
`"300"` fails with the numeric parse error (realized as
`Error::Custom("Failed to parse u8: ...")`) — no wraparound, no
truncation; every decimal above 255 fails the same way; every in-range
decimal is accepted from the `UInt8` kind and equally from the unsized
`Int`/`UInt` kinds; a successful parse is always within 8 bits; and
malformed digits fail with the invalid-digit parse error. -/
theorem u8_decode_numeric_bounds :
    u8.from_cadence_value (.UInt8 "300") =
      .error (.Custom "Failed to parse u8: number too large to fit in target type") ∧
    (∀ n : Nat, 255 < n → u8.from_cadence_value (.UInt8 (natToString n)) =
      .error (.Custom "Failed to parse u8: number too large to fit in target type")) ∧
    (∀ n : Nat, n ≤ 255 →
      u8.from_cadence_value (.UInt8 (natToString n)) = .ok n ∧
      u8.from_cadence_value (.Int (natToString n)) = .ok n ∧
      u8.from_cadence_value (.UInt (natToString n)) = .ok n) ∧
    (∀ s n, u8.from_cadence_value (.UInt8 s) = .ok n → n ≤ 255) ∧
    u8.from_cadence_value (.UInt8 "12a") =
      .error (.Custom "Failed to parse u8: invalid digit found in string") := by
  refine ⟨rfl, ?_, ?_, ?_, rfl⟩
  · intro n hn
    simp only [u8.from_cadence_value]
    rw [parseUnsignedChars_natToString, if_neg (by omega)]
    rfl
  · intro n hn
    refine ⟨?_, ?_, ?_⟩ <;>
      (simp only [u8.from_cadence_value]
       rw [parseUnsignedChars_natToString, if_pos hn]
       rfl)
  · intro s n h
    simp only [u8.from_cadence_value] at h
    cases hp : parseUnsignedChars 255 s.data <;> rw [hp] at h <;>
      simp only [Except.mapError] at h
    · exact Except.noConfusion h
    · cases h
      exact parseUnsignedChars_le 255 s.data n hp

/-- C8 witness: the no-wraparound law applied at the decimal 300. -/
theorem u8_decode_numeric_bounds_witness :
    u8.from_cadence_value (.UInt8 (natToString 300)) =
      .error (.Custom "Failed to parse u8: number too large to fit in target type") :=
  u8_decode_numeric_bounds.2.1 300 (by norm_num)

theorem countKey_cons {κ ν : Type} [DecidableEq κ] (a : κ) (b : ν) (tl : List (κ × ν)) (k : κ) :
    countKey ((a, b) :: tl) k = if a = k then countKey tl k + 1 else countKey tl k := by
  by_cases h : a = k <;> simp [countKey, List.filter_cons, h]

theorem mapNativeLookup_insert {κ ν : Type} [DecidableEq κ]
    (m : List (κ × ν)) (k' : κ) (v : ν) (k : κ) :
    mapNativeLookup (mapNativeInsert m k' v) k =
      if k = k' then some v else mapNativeLookup m k := by
  induction m with
  | nil =>
    by_cases h : k = k' <;> simp [mapNativeInsert, mapNativeLookup, h]
  | cons hd tl ih =>
    obtain ⟨a, b⟩ := hd
    simp only [mapNativeInsert]
    by_cases h1 : k' = a
    · rw [if_pos h1]
      subst h1
      by_cases h2 : k = k' <;> simp [mapNativeLookup, h2]
    · rw [if_neg h1]
      simp only [mapNativeLookup]
      by_cases h2 : k = a
      · have hkk : ¬ k = k' := by
          intro he
          rw [← he] at h1
          exact h1 h2
        rw [if_pos h2, if_pos h2, if_neg hkk]
      · rw [if_neg h2, if_neg h2, ih]

theorem mem_keys_insert {κ ν : Type} [DecidableEq κ]
    {m : List (κ × ν)} {k : κ} {v : ν} {a : κ}
    (h : a ∈ (mapNativeInsert m k v).map Prod.fst) :
    a ∈ m.map Prod.fst ∨ a = k := by
  induction m with
  | nil =>
    simp only [mapNativeInsert, List.map_cons, List.map_nil, List.mem_singleton] at h
    exact Or.inr h
  | cons hd tl ih =>
    obtain ⟨b, c⟩ := hd
    simp only [mapNativeInsert] at h
    by_cases h1 : k = b
    · rw [if_pos h1] at h
      rw [List.map_cons, List.mem_cons] at h
      rcases h with h | h
      · exact Or.inr h
      · exact Or.inl (by rw [List.map_cons]; exact List.mem_cons_of_mem _ h)
    · rw [if_neg h1] at h
      rw [List.map_cons, List.mem_cons] at h
      rcases h with h | h
      · rw [List.map_cons, List.mem_cons]
        exact Or.inl (Or.inl h)
      · rcases ih h with h' | h'
        · rw [List.map_cons, List.mem_cons]
          exact Or.inl (Or.inr h')
        · exact Or.inr h'

theorem nodupKeys_insert {κ ν : Type} [DecidableEq κ]
    {m : List (κ × ν)} (hm : nodupKeys m) (k : κ) (v : ν) :
    nodupKeys (mapNativeInsert m k v) := by
  induction m with
  | nil => simp [mapNativeInsert, nodupKeys]
  | cons hd tl ih =>
    obtain ⟨a, b⟩ := hd
    simp only [nodupKeys, List.map_cons, List.nodup_cons] at hm
    obtain ⟨hnot, htl⟩ := hm
    simp only [mapNativeInsert]
    by_cases h1 : k = a
    · rw [if_pos h1]
      simp only [nodupKeys, List.map_cons, List.nodup_cons]
      subst h1
      exact ⟨hnot, htl⟩
    · rw [if_neg h1]
      simp only [nodupKeys, List.map_cons, List.nodup_cons]
      refine ⟨?_, ih htl⟩
      intro hmem
      rcases mem_keys_insert hmem with h' | h'
      · exact hnot h'
      · exact h1 h'.symm

theorem countKey_eq_zero_of_not_mem {κ ν : Type} [DecidableEq κ]
    {m : List (κ × ν)} {k : κ} (h : k ∉ m.map Prod.fst) : countKey m k = 0 := by
  induction m with
  | nil => rfl
  | cons hd tl ih =>
    obtain ⟨a, b⟩ := hd
    rw [List.map_cons, List.mem_cons, not_or] at h
    have hne : ¬ (a = k) := fun he => h.1 he.symm
    rw [countKey_cons, if_neg hne]
    exact ih h.2

theorem countKey_le_one_of_nodupKeys {κ ν : Type} [DecidableEq κ]
    {m : List (κ × ν)} (hm : nodupKeys m) (k : κ) : countKey m k ≤ 1 := by
  induction m with
  | nil => simp [countKey]
  | cons hd tl ih =>
    obtain ⟨a, b⟩ := hd
    simp only [nodupKeys, List.map_cons, List.nodup_cons] at hm
    obtain ⟨hnot, htl⟩ := hm
    rw [countKey_cons]
    by_cases h : a = k
    · rw [if_pos h]
      subst h
      rw [countKey_eq_zero_of_not_mem hnot]
    · rw [if_neg h]
      exact ih htl

theorem countKey_pos_of_lookup_some {κ ν : Type} [DecidableEq κ]
    {m : List (κ × ν)} {k : κ} {v : ν} (h : mapNativeLookup m k = some v) :
    1 ≤ countKey m k := by
  induction m with
  | nil => exact Option.noConfusion h
  | cons hd tl ih =>
    obtain ⟨a, b⟩ := hd
    simp only [mapNativeLookup] at h
    rw [countKey_cons]
    by_cases he : k = a
    · rw [if_pos he.symm]
      omega
    · rw [if_neg (fun hh => he hh.symm)]
      rw [if_neg he] at h
      exact ih h

theorem lookup_foldl_insert {κ ν : Type} [DecidableEq κ] :
    ∀ (ps : List (κ × ν)) (acc : List (κ × ν)) (k : κ),
    mapNativeLookup (ps.foldl (fun m p => mapNativeInsert m p.1 p.2) acc) k =
      match lastVal ps k with
      | some v => some v
      | none => mapNativeLookup acc k := by
  intro ps
  induction ps with
  | nil => intro acc k; simp [lastVal]
  | cons p ps ih =>
    intro acc k
    rw [List.foldl_cons, ih, mapNativeLookup_insert]
    cases hl : lastVal ps k
    · simp only [lastVal, hl]
      by_cases he : p.1 = k
      · rw [if_pos he, if_pos he.symm]
      · rw [if_neg he, if_neg (fun hh => he hh.symm)]
    · simp [lastVal, hl]

theorem nodupKeys_foldl_insert {κ ν : Type} [DecidableEq κ] :
    ∀ (ps : List (κ × ν)) (acc : List (κ × ν)), nodupKeys acc →
    nodupKeys (ps.foldl (fun m p => mapNativeInsert m p.1 p.2) acc) := by
  intro ps
  induction ps with
  | nil => intro acc h; exact h
  | cons p ps ih =>
    intro acc h
    rw [List.foldl_cons]
    exact ih _ (nodupKeys_insert h _ _)

theorem mapFromEntries_eq_mapM {κ ν : Type} [DecidableEq κ]
    (fromK : CadenceValue → Except Error κ) (fromV : CadenceValue → Except Error ν) :
    ∀ (entries : List DictionaryEntry) (acc : List (κ × ν)) (ps : List (κ × ν)),
    entries.mapM (fun e => do
      let k ← fromK e.key
      let v ← fromV e.value
      pure ((k, v) : κ × ν)) = .ok ps →
    mapFromEntries fromK fromV entries acc =
      .ok (ps.foldl (fun m p => mapNativeInsert m p.1 p.2) acc) := by
  intro entries
  induction entries with
  | nil =>
    intro acc ps h
    rw [List.mapM_nil] at h
    cases h
    rfl
  | cons e rest ih =>
    intro acc ps h
    rw [List.mapM_cons] at h
    cases hk : fromK e.key <;> cases hv : fromV e.value <;>
      cases hr : rest.mapM (fun e => do
          let k ← fromK e.key
          let v ← fromV e.value
          pure ((k, v) : κ × ν)) <;>
      rw [hk, hv, hr] at h <;>
      simp only [bind, Except.bind, pure, Except.pure] at h
    all_goals first
      | exact Except.noConfusion h
      | (cases h
         simp only [mapFromEntries, hk, hv, bind, Except.bind, List.foldl_cons]
         rw [ih _ _ hr])

/-- C9: decoding a Dictionary whose entries all decode into a native map
(HashMap or BTreeMap) succeeds and resolves duplicate keys last-write-wins:
the resulting map is the in-order insert fold of the decoded pairs; looking
up any key yields the value of the *last* entry with that key in list
order, and a key that occurs at all ends up with exactly one entry. -/
theorem map_decode_last_write_wins {κ ν : Type} [DecidableEq κ]
    (fromK : CadenceValue → Except Error κ) (fromV : CadenceValue → Except Error ν)
    (entries : List DictionaryEntry) (ps : List (κ × ν))
    (h : entries.mapM (fun e => do
          let k ← fromK e.key
          let v ← fromV e.value
          pure ((k, v) : κ × ν)) = .ok ps) :
    HashMap.from_cadence_value fromK fromV (.Dictionary entries) =
      .ok (ps.foldl (fun m p => mapNativeInsert m p.1 p.2) []) ∧
    BTreeMap.from_cadence_value fromK fromV (.Dictionary entries) =
      .ok (ps.foldl (fun m p => mapNativeInsert m p.1 p.2) []) ∧
    (∀ k, mapNativeLookup (ps.foldl (fun m p => mapNativeInsert m p.1 p.2) []) k =
      lastVal ps k) ∧
    (∀ k, countKey (ps.foldl (fun m p => mapNativeInsert m p.1 p.2) []) k ≤ 1) ∧
    (∀ k, (lastVal ps k).isSome →
      countKey (ps.foldl (fun m p => mapNativeInsert m p.1 p.2) []) k = 1) := by
  have hnodup : nodupKeys (ps.foldl (fun m p => mapNativeInsert m p.1 p.2)
      ([] : List (κ × ν))) :=
    nodupKeys_foldl_insert ps [] (by simp [nodupKeys])
  have hlook : ∀ k, mapNativeLookup
      (ps.foldl (fun m p => mapNativeInsert m p.1 p.2) []) k = lastVal ps k := by
    intro k
    rw [lookup_foldl_insert]
    cases hl : lastVal ps k <;> simp [mapNativeLookup]
  refine ⟨?_, ?_, hlook, fun k => countKey_le_one_of_nodupKeys hnodup k, ?_⟩
  · simp only [HashMap.from_cadence_value]
    exact mapFromEntries_eq_mapM fromK fromV entries [] ps h
  · simp only [BTreeMap.from_cadence_value]
    exact mapFromEntries_eq_mapM fromK fromV entries [] ps h
  · intro k hsome
    obtain ⟨v, hv⟩ := Option.isSome_iff_exists.mp hsome
    have h1 := countKey_pos_of_lookup_some (m := ps.foldl (fun m p => mapNativeInsert m p.1 p.2) [])
      (k := k) (v := v) (by rw [hlook k, hv])
    have h2 := countKey_le_one_of_nodupKeys hnodup k
    omega

/-- C9 witness: the last-write-wins law applied at the concrete Dictionary
`[{"a": Int "1"}, {"b": Int "2"}, {"a": Int "3"}]` with String keys and
identity values. -/
theorem map_decode_last_write_wins_witness :
    HashMap.from_cadence_value String.from_cadence_value CadenceValue.from_cadence_value
      (.Dictionary [.mk (.String "a") (.Int "1"), .mk (.String "b") (.Int "2"),
        .mk (.String "a") (.Int "3")]) =
      .ok ((([("a", CadenceValue.Int "1"), ("b", CadenceValue.Int "2"),
        ("a", CadenceValue.Int "3")] : List (String × CadenceValue))).foldl
        (fun m p => mapNativeInsert m p.1 p.2) []) :=
  (map_decode_last_write_wins String.from_cadence_value CadenceValue.from_cadence_value
    [.mk (.String "a") (.Int "1"), .mk (.String "b") (.Int "2"), .mk (.String "a") (.Int "3")]
    [("a", CadenceValue.Int "1"), ("b", CadenceValue.Int "2"), ("a", CadenceValue.Int "3")]
    (by rfl)).1
